import Mathlib

/-!
Verification development for the FlowLogic RouteAI repository.

This file gives a shallow embedding, in Lean 4, of the parts of the
repository needed to settle the claims about it:

* `src/services/routing_engine.py` (`RoutingEngine`),
* `src/services/fleet_generator.py` (`FleetGenerator`),
* `src/utils/csv_parser.py` together with the rule-based enrichment of
  `src/services/natural_language.py`,
* `src/saas/middleware/rate_limiting.py` (`RateLimiter`),
* `src/saas/auth/api_keys.py` (`APIKeyManager`),
* the live re-routing helpers of `src/app/main.py`.

Conventions of the embedding:

* Python `float` is modelled as `ℚ` and Python `int` as `ℤ`; `int(x)`
  (truncation toward zero) is `pyInt`, `//` is `Int.fdiv`, `%` is
  `Int.emod`.
* `datetime.time` values are hour/minute pairs (`Tm`); the code only ever
  reads `.hour` and `.minute`.
* The external OR-Tools CP-SAT vehicle-routing solve is an external
  library boundary; it is abstracted as a `Solver` parameter returning the
  visiting order it chose (or `none` when no feasible solution is found,
  which is exactly when the code falls back to `_greedy_route`).  The
  contracts the CP model imposes on any returned solution (capacity
  dimension, nodes drawn from the submitted stops) appear as explicit
  hypotheses of the theorems that need them.
* Presentation-only string fields (`eta`, `notes`, `reasoning`,
  `address`, latitude/longitude copies) and the display rounding
  (`round(x, k)`) are omitted from route records; no claim depends on
  them.
-/

namespace FlowLogic

/-- A time of day, as the hour/minute part of Python's `datetime.time`
(the code never sets seconds). -/
structure Tm where
  hour : Nat
  minute : Nat
deriving DecidableEq, Repr

/-- Minutes since midnight, the conversion used throughout
`routing_engine.py` (`t.hour * 60 + t.minute`). -/
def Tm.toMins (t : Tm) : Int := t.hour * 60 + t.minute

/-- `models.models.SpecialConstraint`. -/
inductive SpecialConstraint
  | scNone
  | fragile
  | refrigerated
  | frozen
  | hazmat
  | heavy
deriving DecidableEq, Repr

/-- `models.models.TruckType`. -/
inductive TruckType
  | dry
  | refrigerated
  | frozen
  | hazmat
  | flatbed
deriving DecidableEq, Repr

/-- `models.models.Stop` (geocoding fields omitted; they only feed the
distance matrix, which is a parameter here). -/
structure Stop where
  stop_id : Int
  address : String
  time_window_start : Tm
  time_window_end : Tm
  pallets : Int
  special_constraint : SpecialConstraint
  service_time_minutes : Int := 15
deriving DecidableEq, Repr

/-- `models.models.Truck` (depot coordinates omitted, as for `Stop`). -/
structure Truck where
  truck_id : String
  depot_address : String
  max_pallets : Int
  truck_type : TruckType
  shift_start : Tm
  shift_end : Tm
  cost_per_mile : ℚ := 5/2
  avg_speed_mph : ℚ := 45
deriving DecidableEq, Repr

/-- `models.models.RouteStop`, keeping the fields the claims are about:
the visited stop's id, the computed arrival time in minutes since
midnight on the base date, the leg distance, and the denormalized
pallets/time-window copies. -/
structure RouteStopE where
  stop_id : Int
  arrivalMins : Int
  distance_from_previous : ℚ
  pallets : Int
  time_window_start : Tm
  time_window_end : Tm
deriving DecidableEq, Repr

/-- `models.models.TruckRoute` (reasoning text and display rounding
omitted). -/
structure TruckRouteE where
  truck_id : String
  stops : List RouteStopE
  total_miles : ℚ
  total_time_hours : ℚ
  fuel_estimate : ℚ
  utilization_percent : ℚ
deriving DecidableEq, Repr

/-- Python `int(x)` on a float: truncation toward zero. -/
def pyInt (x : ℚ) : Int := if 0 ≤ x then ⌊x⌋ else ⌈x⌉

/-- The distance matrix built by `_create_full_distance_matrix`: a dict
from pairs of location labels to miles.  Ungeocoded locations are simply
absent, and every lookup in the engine uses `.get(key, 50)`. -/
def DistMatrix := String → String → Option ℚ

/-- Location label of a stop, `f"stop_{stop.stop_id}"`. -/
def stopLoc (s : Stop) : String := "stop_" ++ toString s.stop_id

/-- Location label of a truck's depot, `f"depot_{truck.truck_id}"`. -/
def depotLoc (t : Truck) : String := "depot_" ++ t.truck_id

/-- `distance_matrix.get((a, b), 50)`. -/
def dmGet (dm : DistMatrix) (a b : String) : ℚ := (dm a b).getD 50

/-- The distance lookup in `_greedy_route`, which additionally replaces
a negative (or non-numeric) entry by the 50-mile default. -/
def dmGetChecked (dm : DistMatrix) (a b : String) : ℚ :=
  let d := dmGet dm a b
  if d < 0 then 50 else d

/-- `RoutingEngine.compatibility_rules` (routing_engine.py lines 25-31). -/
def compatibilityRules : TruckType → List SpecialConstraint
  | .dry => [.scNone, .fragile, .heavy]
  | .refrigerated => [.scNone, .refrigerated, .fragile]
  | .frozen => [.scNone, .frozen, .refrigerated]
  | .hazmat => [.hazmat]
  | .flatbed => [.heavy, .scNone]

/-- `RoutingEngine._check_time_compatibility`: the stop's window overlaps
the truck's shift. -/
def checkTimeCompatibility (t : Truck) (s : Stop) : Bool :=
  !(decide (t.shift_end.toMins < s.time_window_start.toMins) ||
    decide (t.shift_start.toMins > s.time_window_end.toMins))

/-- One stop's compatibility test inside
`RoutingEngine._get_compatible_stops`: allowed special constraint,
capacity fit, and time-window overlap. -/
def isStopCompatible (t : Truck) (s : Stop) : Bool :=
  decide (s.special_constraint ∈ compatibilityRules t.truck_type) &&
    decide (s.pallets ≤ t.max_pallets) && checkTimeCompatibility t s

/-- `RoutingEngine._get_compatible_stops`, for one truck. -/
def getCompatibleStops (t : Truck) (stops : List Stop) : List Stop :=
  stops.filter (isStopCompatible t)

/-- One iteration of the candidate scan inside `_greedy_route`'s
while-loop: skip a stop that overflows capacity, otherwise replace the
current best candidate when this stop's (exact, float) arrival time is
at most its window end and it is strictly nearer.  `best = none` models
the initial `best_distance = inf`, against which any distance wins. -/
def greedyPickStep (t : Truck) (dm : DistMatrix) (curLoc : String) (curTime : Int)
    (totalPallets : Int) (best : Option (Stop × ℚ)) (s : Stop) : Option (Stop × ℚ) :=
  if totalPallets + s.pallets > t.max_pallets then best
  else
    let dist := dmGetChecked dm curLoc (stopLoc s)
    let arrival : ℚ := (curTime : ℚ) + dist * 60 / t.avg_speed_mph
    match best with
    | Option.none =>
      if arrival ≤ (s.time_window_end.toMins : ℚ) then some (s, dist) else Option.none
    | some (b, bd) =>
      if arrival ≤ (s.time_window_end.toMins : ℚ) ∧ dist < bd then some (s, dist)
      else some (b, bd)

/-- The candidate scan of `_greedy_route`'s while-loop over the remaining
stops, in list order. -/
def greedyPickGo (t : Truck) (dm : DistMatrix) (curLoc : String) (curTime : Int)
    (totalPallets : Int) : List Stop → Option (Stop × ℚ) → Option (Stop × ℚ)
  | [], best => best
  | s :: rest, best =>
    greedyPickGo t dm curLoc curTime totalPallets rest
      (greedyPickStep t dm curLoc curTime totalPallets best s)

/-- The nearest-feasible-stop selection of `_greedy_route`. -/
def greedyPick (t : Truck) (dm : DistMatrix) (curLoc : String) (curTime : Int)
    (totalPallets : Int) (remaining : List Stop) : Option (Stop × ℚ) :=
  greedyPickGo t dm curLoc curTime totalPallets remaining Option.none

/-- The while-loop of `RoutingEngine._greedy_route`, with fuel equal to
the number of remaining stops (each iteration removes the picked stop, so
this fuel is never exhausted early).  Returns the recorded route stops
and the final current location.  The recorded arrival is
`current_time + int(best_distance * 60 / avg_speed_mph)`; the sanity
`try/except` branches of the source cannot fire because the checked
distance is always a nonnegative number. -/
def greedyLoop (t : Truck) (dm : DistMatrix) :
    Nat → List Stop → String → Int → Int → List RouteStopE × String
  | 0, _, curLoc, _, _ => ([], curLoc)
  | Nat.succ fuel, remaining, curLoc, curTime, totalPallets =>
    if remaining = [] ∨ ¬ totalPallets < t.max_pallets then ([], curLoc)
    else
      match greedyPick t dm curLoc curTime totalPallets remaining with
      | Option.none => ([], curLoc)
      | some (s, dist) =>
        let arrivalMins : Int := curTime + pyInt (dist * 60 / t.avg_speed_mph)
        let rs : RouteStopE :=
          ⟨s.stop_id, arrivalMins, dist, s.pallets, s.time_window_start, s.time_window_end⟩
        let rest := greedyLoop t dm fuel (remaining.erase s) (stopLoc s)
          (arrivalMins + s.service_time_minutes) (totalPallets + s.pallets)
        (rs :: rest.1, rest.2)

/-- `RoutingEngine._greedy_route`.  The aggregate totals re-derive the
loop's running sums from the recorded stops (the loop adds exactly one
`best_distance` and one `pallets` per recorded stop). -/
def greedyRoute (t : Truck) (dm : DistMatrix) (stops : List Stop) : TruckRouteE :=
  let r := greedyLoop t dm stops.length stops (depotLoc t) t.shift_start.toMins 0
  let routeStops := r.1
  let legSum : ℚ := (routeStops.map (·.distance_from_previous)).sum
  let totalDistance : ℚ :=
    if routeStops = [] then legSum else legSum + dmGet dm r.2 (depotLoc t)
  let totalPallets : Int := (routeStops.map (·.pallets)).sum
  { truck_id := t.truck_id
    stops := routeStops
    total_miles := totalDistance
    total_time_hours := totalDistance / t.avg_speed_mph + routeStops.length * (1/4)
    fuel_estimate := totalDistance * t.cost_per_mile
    utilization_percent := (totalPallets : ℚ) / (t.max_pallets : ℚ) * 100 }

/-- Python's `arrival_mins_int` handling in
`_extract_route_from_solution`: truncate the float minute count, split
into hour/minute with floor division, and clamp into a valid
`datetime.time`. -/
def clampArrival (cur : ℚ) : Int :=
  let am := pyInt cur
  let h := min 23 (max 0 (Int.fdiv am 60))
  let m := min 59 (max 0 (Int.emod am 60))
  h * 60 + m

/-- The node walk of `RoutingEngine._extract_route_from_solution` over
the solver's visiting order: record each stop with the running
`current_time`, then add travel time to the next stop plus this stop's
service time — the update is skipped on the leg returning to the depot,
exactly as in the source. -/
def extractStopsWalk (dm : DistMatrix) (t : Truck) :
    List Stop → String → ℚ → List RouteStopE
  | [], _, _ => []
  | s :: rest, prevLoc, cur =>
    let dist := dmGet dm prevLoc (stopLoc s)
    let rs : RouteStopE :=
      ⟨s.stop_id, clampArrival cur, dist, s.pallets, s.time_window_start, s.time_window_end⟩
    match rest with
    | [] => [rs]
    | s2 :: _ =>
      rs :: extractStopsWalk dm t rest (stopLoc s)
        (cur + dmGet dm (stopLoc s) (stopLoc s2) * 60 / t.avg_speed_mph +
          (s.service_time_minutes : ℚ))

/-- `RoutingEngine._extract_route_from_solution`, over the visiting
order returned by the solver.  `current_time` starts at the shift start
and is advanced by the depot-to-first-stop travel before the first stop
is recorded, as in the source's depot iteration. -/
def extractRoute (dm : DistMatrix) (t : Truck) (order : List Stop) : TruckRouteE :=
  let routeStops :=
    match order with
    | [] => []
    | s1 :: _ =>
      extractStopsWalk dm t order (depotLoc t)
        ((t.shift_start.toMins : ℚ) + dmGet dm (depotLoc t) (stopLoc s1) * 60 / t.avg_speed_mph)
  let legSum : ℚ := (routeStops.map (·.distance_from_previous)).sum
  let totalDistance : ℚ :=
    match order.getLast? with
    | Option.none => legSum
    | some sl => legSum + dmGet dm (stopLoc sl) (depotLoc t)
  let totalPallets : Int := (routeStops.map (·.pallets)).sum
  { truck_id := t.truck_id
    stops := routeStops
    total_miles := totalDistance
    total_time_hours := totalDistance / t.avg_speed_mph + routeStops.length * (1/4)
    fuel_estimate := totalDistance * t.cost_per_mile
    utilization_percent := (totalPallets : ℚ) / (t.max_pallets : ℚ) * 100 }

/-- `RoutingEngine._create_empty_route`. -/
def createEmptyRoute (t : Truck) : TruckRouteE :=
  { truck_id := t.truck_id, stops := [], total_miles := 0, total_time_hours := 0
    fuel_estimate := 0, utilization_percent := 0 }

/-- The external OR-Tools constraint-programming solve, abstracted: given
the truck and its available stops it either returns the visiting order of
a solution, or `none` (no feasible solution within the 5-second budget),
in which case the code falls back to `_greedy_route`. -/
def Solver := Truck → List Stop → Option (List Stop)

/-- `RoutingEngine._optimize_truck_route`. -/
def optimizeTruckRoute (solver : Solver) (dm : DistMatrix) (t : Truck)
    (ss : List Stop) : TruckRouteE :=
  if ss = [] then createEmptyRoute t
  else
    match solver t ss with
    | some order => extractRoute dm t order
    | Option.none => greedyRoute t dm ss

/-- The per-truck loop of `RoutingEngine.route_trucks`: each truck takes
the compatible stops whose ids were not claimed by an earlier truck, gets
an optimized (or empty) route, and adds its route's stop ids to the
claimed set. -/
def routeTrucksGo (solver : Solver) (dm : DistMatrix) (stops : List Stop) :
    List Truck → List Int → List (Truck × TruckRouteE)
  | [], _ => []
  | t :: ts, assigned =>
    let available := (getCompatibleStops t stops).filter (fun s => !(assigned.contains s.stop_id))
    if available = [] then
      (t, createEmptyRoute t) :: routeTrucksGo solver dm stops ts assigned
    else
      let r := optimizeTruckRoute solver dm t available
      (t, r) :: routeTrucksGo solver dm stops ts (assigned ++ r.stops.map (·.stop_id))

/-- Stable insertion of a truck into a list sorted by decreasing
`max_pallets`: the truck goes in front of the first entry whose capacity
does not exceed it, so earlier-listed trucks keep their position among
equal capacities. -/
def insertTruckByCapacity (x : Truck) : List Truck → List Truck
  | [] => [x]
  | y :: ys =>
    if y.max_pallets ≤ x.max_pallets then x :: y :: ys
    else y :: insertTruckByCapacity x ys

/-- `sorted(trucks, key=lambda t: t.max_pallets, reverse=True)`: a
stable sort by decreasing capacity (Python's sort is stable; any stable
sort by the same key produces the same list). -/
def sortTrucksByCapacityDesc (trucks : List Truck) : List Truck :=
  trucks.foldr insertTruckByCapacity []

/-- `RoutingEngine.route_trucks` (geocoding and distance-matrix
construction are inputs here).  Trucks are processed
largest-capacity-first; the result keeps each truck next to the route
stored under its id in the returned dict. -/
def routeTrucks (solver : Solver) (dm : DistMatrix) (stops : List Stop)
    (trucks : List Truck) : List (Truck × TruckRouteE) :=
  routeTrucksGo solver dm stops (sortTrucksByCapacityDesc trucks) []

/-- The stop ids visited by a route. -/
def routeStopIds (r : TruckRouteE) : List Int := r.stops.map (·.stop_id)

/-- Invariant carried by the candidate scan of `_greedy_route`: a chosen
candidate comes from the scanned pool, fits the remaining capacity, its
distance is the checked matrix lookup from the current location, and its
exact arrival time is at most its window end. -/
def pickOk (t : Truck) (dm : DistMatrix) (curLoc : String) (curTime : Int)
    (totalPallets : Int) (pool : List Stop) : Option (Stop × ℚ) → Prop
  | Option.none => True
  | some (s, d) => s ∈ pool ∧ totalPallets + s.pallets ≤ t.max_pallets ∧
      d = dmGetChecked dm curLoc (stopLoc s) ∧
      (curTime : ℚ) + d * 60 / t.avg_speed_mph ≤ (s.time_window_end.toMins : ℚ)

/-- A solver standing for an OR-Tools search that finds no feasible
solution, so that `route_trucks` always takes the greedy fallback. -/
def noSolver : Solver := fun _ _ => Option.none

/-- A distance matrix with no geocoded entries: every lookup falls back
to the 50-mile default, as for ungeocoded addresses. -/
def emptyDM : DistMatrix := fun _ _ => Option.none

/-- Concrete stop used in the counterexample computations: one plain
stop with the default 08:00-17:00 window. -/
def cexStop1 : Stop :=
  { stop_id := 1, address := "A", time_window_start := ⟨8, 0⟩,
    time_window_end := ⟨17, 0⟩, pallets := 3, special_constraint := .scNone }

/-- Concrete truck used in the counterexample computations: a dry truck
whose shift starts at 06:00, two hours before `cexStop1`'s window
opens. -/
def cexTruckA : Truck :=
  { truck_id := "A", depot_address := "D", max_pallets := 10, truck_type := .dry,
    shift_start := ⟨6, 0⟩, shift_end := ⟨18, 0⟩ }

/-- Concrete hazmat stop for the compatibility/disjointness witnesses. -/
def cexStop2 : Stop :=
  { stop_id := 2, address := "B", time_window_start := ⟨8, 0⟩,
    time_window_end := ⟨17, 0⟩, pallets := 2, special_constraint := .hazmat }

/-- Concrete frozen stop for the compatibility/disjointness witnesses. -/
def cexStop3 : Stop :=
  { stop_id := 3, address := "C", time_window_start := ⟨8, 0⟩,
    time_window_end := ⟨17, 0⟩, pallets := 4, special_constraint := .frozen }

/-- Concrete hazmat truck for the compatibility/disjointness witnesses. -/
def cexTruckH : Truck :=
  { truck_id := "H", depot_address := "D", max_pallets := 6, truck_type := .hazmat,
    shift_start := ⟨7, 0⟩, shift_end := ⟨18, 0⟩ }

/-! ## Fleet generator (`src/services/fleet_generator.py`) -/

/-- The `cost_optimization_targets` sub-dict, keeping the key the
generator reads. -/
structure FleetCostTargets where
  max_total_cost : Option ℚ := Option.none
deriving Repr

/-- The parsed-constraints dict as read by `FleetGenerator`: one field
per key the generator looks up (`required_truck_types` is kept after the
`getattr(TruckType, t.upper(), None)` lookup; entries that failed that
lookup are outside the scope of the claims).  A `none`/`false` field is
an absent key. -/
structure FleetConstraints where
  route_efficiency_goals : Option (List String) := Option.none
  max_stops_per_truck : Option Int := Option.none
  required_truck_types : Option (List TruckType) := Option.none
  max_pallets_per_truck : Option Int := Option.none
  cost_optimization_targets : Option FleetCostTargets := Option.none
  fuel_efficiency_priority : Bool := false
  avoid_areas : Bool := false
  prioritize_morning : Bool := false
  preferred_delivery_window : Option String := Option.none
  max_route_hours : Option ℚ := Option.none
deriving Repr

/-- One of `FleetGenerator.fleet_templates`. -/
structure FleetTemplate where
  count : Nat
  capacity : List Int
  types : List TruckType
deriving Repr

/-- `FleetGenerator.fleet_templates`, keyed by the size name
(`_determine_fleet_size` only ever produces the four known keys, so the
catch-all arm is the "specialized" template). -/
def fleetTemplates : String → FleetTemplate
  | "small" => ⟨2, [8, 10], [.dry, .refrigerated]⟩
  | "medium" => ⟨3, [10, 8, 12], [.dry, .refrigerated, .flatbed]⟩
  | "large" => ⟨4, [10, 8, 12, 9], [.dry, .refrigerated, .flatbed, .frozen]⟩
  | _ => ⟨5, [10, 8, 12, 9, 6], [.dry, .refrigerated, .flatbed, .frozen, .hazmat]⟩

/-- Python `min` over time-of-day values (ties keep the first), with an
explicit starting value. -/
def tmFoldMin (x : Tm) (l : List Tm) : Tm :=
  l.foldl (fun a b => if b.toMins < a.toMins then b else a) x

/-- Python `max` over time-of-day values (ties keep the first), with an
explicit starting value. -/
def tmFoldMax (x : Tm) (l : List Tm) : Tm :=
  l.foldl (fun a b => if a.toMins < b.toMins then b else a) x

/-- The part of `FleetGenerator._analyze_stop_requirements` that the
rest of the generator reads back (the constraint counts and delivery
spread are computed but never consulted). -/
structure FleetAnalysis where
  total_pallets : Int
  max_pallets_per_stop : Int
  required_types : List TruckType
  earliest_delivery : Tm
  latest_delivery : Tm
deriving Repr

/-- `FleetGenerator._analyze_stop_requirements`. -/
def analyzeStopRequirements (stops : List Stop) : FleetAnalysis :=
  let cs := stops.map (·.special_constraint)
  { total_pallets := (stops.map (·.pallets)).sum
    max_pallets_per_stop :=
      match stops with
      | [] => 0
      | s :: rest => (rest.map (·.pallets)).foldl max s.pallets
    required_types :=
      [TruckType.dry] ++
        (if SpecialConstraint.refrigerated ∈ cs then [TruckType.refrigerated] else []) ++
        (if SpecialConstraint.frozen ∈ cs then [TruckType.frozen] else []) ++
        (if SpecialConstraint.hazmat ∈ cs then [TruckType.hazmat] else []) ++
        (if SpecialConstraint.heavy ∈ cs then [TruckType.flatbed] else [])
    earliest_delivery :=
      match stops.map (·.time_window_start) with
      | [] => ⟨8, 0⟩
      | x :: xs => tmFoldMin x xs
    latest_delivery :=
      match stops.map (·.time_window_end) with
      | [] => ⟨17, 0⟩
      | x :: xs => tmFoldMax x xs }

/-- `FleetGenerator._determine_fleet_size`.  Only the stop count decides
the template: the constraint-diversity refinement in the source sits
below an unconditional `return` chain and is dead code, and
`max_stops_per_truck` is read but never used. -/
def determineFleetSize (stops : List Stop) (_constraints : Option FleetConstraints) : String :=
  if stops.length ≤ 5 then "small"
  else if stops.length ≤ 12 then "medium"
  else if stops.length ≤ 20 then "large"
  else "specialized"

/-- The body of `_optimize_truck_types`' while-loop: one pass over the
template types (skipping ones already present, stopping at the target
count), then one extra Dry truck if the list is still short.  The fuel
is the target count: each pass entered with fewer than `count` types
adds at least one, so the fuel is never exhausted early. -/
def optimizeTruckTypesLoop (templateTypes : List TruckType) (count : Nat) :
    Nat → List TruckType → List TruckType
  | 0, acc => acc
  | Nat.succ fuel, acc =>
    if acc.length < count then
      let acc1 := templateTypes.foldl
        (fun a ty => if count ≤ a.length then a else if ty ∈ a then a else a ++ [ty]) acc
      let acc2 := if acc1.length < count then acc1 ++ [TruckType.dry] else acc1
      optimizeTruckTypesLoop templateTypes count fuel acc2
    else acc

/-- `FleetGenerator._optimize_truck_types`: required types first
(deduplicated, in order), then template types, then Dry padding, cut to
the template's truck count. -/
def optimizeTruckTypes (required templateTypes : List TruckType) (count : Nat) :
    List TruckType :=
  let base := required.foldl (fun a ty => if ty ∈ a then a else a ++ [ty]) []
  (optimizeTruckTypesLoop templateTypes count count base).take count

/-- `FleetGenerator._determine_cost_per_mile` (the final
`round(base_cost, 2)` display rounding is omitted; IEEE-float artifacts
of that rounding are outside the scope of the claims). -/
def determineCostPerMile (ty : TruckType) (constraints : Option FleetConstraints) : ℚ :=
  let base : ℚ :=
    match ty with
    | .dry => 5/2
    | .refrigerated => 16/5
    | .frozen => 19/5
    | .hazmat => 9/2
    | .flatbed => 14/5
  let base := match constraints with
    | some c => if c.fuel_efficiency_priority then base * (17/20) else base
    | Option.none => base
  match constraints with
  | some c => if c.cost_optimization_targets.isSome then base * (9/10) else base
  | Option.none => base

/-- `FleetGenerator._determine_average_speed` (sequential overrides, the
last matching branch wins). -/
def determineAverageSpeed (constraints : Option FleetConstraints) : ℚ :=
  match constraints with
  | Option.none => 45
  | some c =>
    let s : ℚ := 45
    let s := match c.route_efficiency_goals with
      | some goals => if "minimize_time" ∈ goals then 50 else s
      | Option.none => s
    let s := if c.fuel_efficiency_priority then 42 else s
    if c.avoid_areas then 43 else s

/-- Python `"07:00" in window or "7:00" in window` needs a substring
test; shared with the CSV-enrichment keyword matching below. -/
def charListStartsWith : List Char → List Char → Bool
  | [], _ => true
  | _ :: _, [] => false
  | a :: as, b :: bs => a = b && charListStartsWith as bs

/-- Substring occurrence over character lists. -/
def charListHasSub (needle : List Char) : List Char → Bool
  | [] => charListStartsWith needle []
  | c :: cs => charListStartsWith needle (c :: cs) || charListHasSub needle cs

/-- Python's `needle in haystack` on strings. -/
def strContainsSub (hay needle : String) : Bool :=
  charListHasSub needle.toList hay.toList

/-- ASCII whitespace, as stripped by `str.strip()` on these inputs. -/
def isPyWs (c : Char) : Bool :=
  c = ' ' || c = '\t' || c = '\n' || c = '\r'

/-- Python `str.strip()` (ASCII whitespace). -/
def pyStrip (s : String) : String :=
  String.mk (((s.toList.dropWhile isPyWs).reverse.dropWhile isPyWs).reverse)

/-- Python `str.lower()` (ASCII case folding). -/
def pyLower (s : String) : String :=
  String.mk (s.toList.map Char.toLower)

/-- Splitter behind Python `str.split(sep)` for a one-character
separator. -/
def splitCharAux (sep : Char) : List Char → List Char → List (List Char)
  | [], acc => [acc.reverse]
  | c :: cs, acc =>
    if c = sep then acc.reverse :: splitCharAux sep cs []
    else splitCharAux sep cs (c :: acc)

/-- Python `str.split(sep)` for a one-character separator. -/
def pySplitOnChar (sep : Char) (s : String) : List String :=
  (splitCharAux sep s.toList []).map String.mk

/-- Digit accumulator behind `int(s)` for nonnegative inputs. -/
def digitsToNatGo : List Char → Nat → Option Nat
  | [], acc => some acc
  | c :: cs, acc =>
    if c.isDigit then digitsToNatGo cs (acc * 10 + (c.toNat - 48)) else Option.none

/-- Python `int(s)` restricted to nonnegative digit strings (a failure,
including a negative or malformed field, is the `ValueError` branch; a
time component below zero would be rejected by `datetime.time`
anyway). -/
def pyToNat? (s : String) : Option Nat :=
  match s.toList with
  | [] => Option.none
  | l => digitsToNatGo l 0

/-- `FleetGenerator._determine_shift_start`. -/
def determineShiftStart (stops : List Stop) (constraints : Option FleetConstraints) : Tm :=
  match stops.map (·.time_window_start) with
  | [] => ⟨7, 0⟩
  | x :: xs =>
    let earliest := tmFoldMin x xs
    let startHour : Int := max ((earliest.hour : Int) - 1) 6
    let startHour :=
      match constraints with
      | some c =>
        if c.prioritize_morning then 6
        else
          match c.preferred_delivery_window with
          | some w =>
            if strContainsSub w "07:00" || strContainsSub w "7:00" then 6 else startHour
          | Option.none => startHour
      | Option.none => startHour
    ⟨startHour.toNat, 0⟩

/-- `FleetGenerator._determine_shift_end`. -/
def determineShiftEnd (stops : List Stop) (constraints : Option FleetConstraints) : Tm :=
  match stops.map (·.time_window_end) with
  | [] => ⟨15, 0⟩
  | x :: xs =>
    let latest := tmFoldMax x xs
    let endHour : Int := min ((latest.hour : Int) + 1) 18
    let endHour :=
      match constraints with
      | some c =>
        match c.max_route_hours with
        | some mh =>
          min (((determineShiftStart stops constraints).hour : Int) + pyInt mh) 18
        | Option.none => endHour
      | Option.none => endHour
    ⟨endHour.toNat, 0⟩

/-- `FleetGenerator._optimize_fleet_for_cost`. -/
def optimizeFleetForCost (trucks : List Truck) (costTargets : FleetCostTargets) :
    List Truck :=
  match costTargets.max_total_cost with
  | Option.none => trucks
  | some target =>
    let estimatedTotalMiles : ℚ := (trucks.length : ℚ) * 80
    let currentEstimatedCost : ℚ :=
      (trucks.map (fun tr => tr.cost_per_mile * (estimatedTotalMiles / (trucks.length : ℚ)))).sum
    if currentEstimatedCost > target then
      let reductionFactor := target / currentEstimatedCost
      if reductionFactor < 4/5 then
        if trucks.length > 1 then trucks.dropLast else trucks
      else
        trucks.map (fun tr => { tr with cost_per_mile := tr.cost_per_mile * reductionFactor })
    else trucks

/-- `FleetGenerator.generate_default_fleet`.  The
`_apply_constraints_to_fleet_analysis` step only writes analysis keys
that are never read back, so it does not appear. -/
def generateDefaultFleet (stops : List Stop) (constraints : Option FleetConstraints)
    (depot_address : Option String) : List Truck :=
  let analysis := analyzeStopRequirements stops
  let templateSize := determineFleetSize stops constraints
  let template := fleetTemplates templateSize
  let depot := depot_address.getD "1000 Distribution Center Dr, Atlanta, GA"
  let truckTypes0 := optimizeTruckTypes analysis.required_types template.types template.count
  let truckTypes :=
    match constraints with
    | some c =>
      match c.required_truck_types with
      | some req =>
        let filtered := truckTypes0.filter (fun ty => ty ∈ req)
        if filtered = [] then req.take 1 else filtered
      | Option.none => truckTypes0
    | Option.none => truckTypes0
  let trucks := (List.range truckTypes.length).map (fun i =>
    let cap0 : Int := template.capacity.getD i 10
    let cap1 : Int :=
      if analysis.max_pallets_per_stop > cap0 then
        min (analysis.max_pallets_per_stop + 2) 20
      else cap0
    let cap2 : Int :=
      match constraints with
      | some c =>
        match c.max_pallets_per_truck with
        | some mp => min cap1 mp
        | Option.none => cap1
      | Option.none => cap1
    { truck_id := String.mk [Char.ofNat (65 + i)]
      depot_address := depot
      max_pallets := cap2
      truck_type := truckTypes.getD i TruckType.dry
      shift_start := determineShiftStart stops constraints
      shift_end := determineShiftEnd stops constraints
      cost_per_mile := determineCostPerMile (truckTypes.getD i TruckType.dry) constraints
      avg_speed_mph := determineAverageSpeed constraints })
  match constraints with
  | some c =>
    match c.cost_optimization_targets with
    | some ct => optimizeFleetForCost trucks ct
    | Option.none => trucks
  | Option.none => trucks

/-! ## CSV parsing with rule-based enrichment
(`src/utils/csv_parser.py` together with
`NaturalLanguageProcessor._rule_based_enrichment` from
`src/services/natural_language.py`) -/

/-- `any(word in address_lower for word in [...])`. -/
def containsAnyKw (addressLower : String) (kws : List String) : Bool :=
  kws.any (fun k => strContainsSub addressLower k)

/-- The enrichment dict produced by
`NaturalLanguageProcessor._rule_based_enrichment` when invoked with
empty existing data, which is exactly how `enrich_stop_data` reaches it
when no LLM API key is configured (`use_llm` is false): every one of the
four keys is then filled. -/
structure EnrichedData where
  estimated_pallets : Int
  special_constraint : String
  suggested_time_window : String
  service_time_minutes : Int
deriving DecidableEq, Repr

/-- `NaturalLanguageProcessor._rule_based_enrichment` on empty existing
data: keyword heuristics over the lowercased address. -/
def ruleBasedEnrichment (address : String) : EnrichedData :=
  let addressLower := pyLower address
  { estimated_pallets :=
      if containsAnyKw addressLower ["walmart", "target", "costco", "store", "retail"] then 6
      else if containsAnyKw addressLower ["restaurant", "cafe", "diner", "kitchen"] then 4
      else if containsAnyKw addressLower ["hospital", "clinic", "medical"] then 2
      else if containsAnyKw addressLower ["warehouse", "distribution", "depot"] then 12
      else 3
    special_constraint :=
      if containsAnyKw addressLower ["restaurant", "food", "grocery", "fresh"] then
        "Refrigerated"
      else if containsAnyKw addressLower ["pharmacy", "medical", "hospital"] then "Fragile"
      else if containsAnyKw addressLower ["warehouse", "industrial", "manufacturing"] then
        "Heavy"
      else "None"
    suggested_time_window :=
      if containsAnyKw addressLower ["restaurant", "cafe"] then "06:00-11:00"
      else if containsAnyKw addressLower ["office", "business"] then "09:00-17:00"
      else "08:00-18:00"
    service_time_minutes := 15 }

/-- Parse `"HH:MM"` as `csv_parser.parse_time` does (via `int()` and the
`datetime.time` range checks; a failure is the `ValueError` branch). -/
def parseTmStr (s : String) : Option Tm :=
  match pySplitOnChar ':' s with
  | [h, m] =>
    match pyToNat? h, pyToNat? m with
    | some hh, some mm =>
      if hh ≤ 23 ∧ mm ≤ 59 then some ⟨hh, mm⟩ else Option.none
    | _, _ => Option.none
  | _ => Option.none

/-- `csv_parser.parse_time_window` on `"HH:MM-HH:MM"`; `none` is the
raised `ValueError`. -/
def parseTimeWindowStr (s : String) : Option (Tm × Tm) :=
  match pySplitOnChar '-' s with
  | [a, b] =>
    match parseTmStr a, parseTmStr b with
    | some t1, some t2 => some (t1, t2)
    | _, _ => Option.none
  | _ => Option.none

/-- `SpecialConstraint(value)`: the enum lookup by value; `none` is the
raised `ValueError`. -/
def parseSpecialConstraintStr : String → Option SpecialConstraint
  | "None" => some .scNone
  | "Fragile" => some .fragile
  | "Refrigerated" => some .refrigerated
  | "Frozen" => some .frozen
  | "Hazmat" => some .hazmat
  | "Heavy" => some .heavy
  | _ => Option.none

/-- `parse_stops_csv` specialised to the case the claim is about: the
only detected column is an address column (so no stop-id, time-window,
pallet or constraint columns exist) and the LLM is unavailable, so
`enrich_stop_data` is the rule-based path.  `rows` are the address-cell
strings in row order; each row yields a stop with the 1-based row index
as its id, the enriched window (falling back to 08:00-17:00 only if the
enriched window fails to parse), the enriched pallets, the enriched
constraint (falling back to `None` if it is not a valid enum value), and
the enriched service time. -/
def parseStopsCsvAddressOnly (rows : List String) : List Stop :=
  rows.mapIdx (fun idx cell =>
    let address := pyStrip cell
    let e := ruleBasedEnrichment address
    let tw := (parseTimeWindowStr e.suggested_time_window).getD (⟨8, 0⟩, ⟨17, 0⟩)
    let sc := (parseSpecialConstraintStr e.special_constraint).getD SpecialConstraint.scNone
    { stop_id := (idx : Int) + 1
      address := address
      time_window_start := tw.1
      time_window_end := tw.2
      pallets := e.estimated_pallets
      special_constraint := sc
      service_time_minutes := e.service_time_minutes })

/-- An address that matches none of the rule-based enrichment keyword
lists (so every heuristic falls to its final branch). -/
def kwFree (address : String) : Bool :=
  let addressLower := pyLower address
  !(containsAnyKw addressLower ["walmart", "target", "costco", "store", "retail"] ||
    containsAnyKw addressLower ["restaurant", "cafe", "diner", "kitchen"] ||
    containsAnyKw addressLower ["hospital", "clinic", "medical"] ||
    containsAnyKw addressLower ["warehouse", "distribution", "depot"] ||
    containsAnyKw addressLower ["restaurant", "food", "grocery", "fresh"] ||
    containsAnyKw addressLower ["pharmacy", "medical", "hospital"] ||
    containsAnyKw addressLower ["warehouse", "industrial", "manufacturing"] ||
    containsAnyKw addressLower ["restaurant", "cafe"] ||
    containsAnyKw addressLower ["office", "business"])

/-! ## Rate limiting middleware (`src/saas/middleware/rate_limiting.py`)

Timestamps (`time.time()` floats) are `ℚ`.  The per-identifier request
store is a function from identifier to the stored timestamps: the
in-memory fallback dict, or, for the Redis path, the sorted set
`rate_limit:{identifier}` (member `str(now)` with score `now`; the
theorems below use strictly increasing call times, under which member
collisions cannot occur and the set is faithfully a list of scores). -/

/-- `RateLimiter.default_limits` with the `.get(tier, limits["free"])`
fallback. -/
def rlDefaultLimit : String → Nat
  | "free" => 10
  | "starter" => 60
  | "professional" => 300
  | "enterprise" => 1000
  | "admin" => 10000
  | _ => 10

/-- `RateLimiter.get_rate_limit`: a truthy override wins (Python `if
override:` — an override of 0 is falsy and falls back to the tier
default). -/
def getRateLimit (tier : String) (override : Option Nat) : Nat :=
  match override with
  | some o => if o = 0 then rlDefaultLimit tier else o
  | Option.none => rlDefaultLimit tier

/-- Per-identifier stored request timestamps. -/
def RLStore := String → List ℚ

/-- The rate info returned alongside the decision. -/
structure RLResult where
  allowed : Bool
  limit : Nat
  remaining : Nat
  reset_time : ℚ
deriving Repr

/-- `RateLimiter._memory_rate_limit`: prune entries at or before
`now - window`, count, admit (appending `now`) only while the count is
below the limit, else reject with `remaining = 0`.  The pruned list is
written back in both cases, as in the source. -/
def memoryRateLimit (store : RLStore) (identifier : String) (limit : Nat) (window : ℚ)
    (now : ℚ) : RLResult × RLStore :=
  let kept := (store identifier).filter (fun rt => decide (now - window < rt))
  let currentCount := kept.length
  if currentCount < limit then
    ({ allowed := true, limit := limit, remaining := limit - currentCount - 1,
       reset_time := now + window },
     fun i => if i = identifier then kept ++ [now] else store i)
  else
    ({ allowed := false, limit := limit, remaining := 0, reset_time := now + window },
     fun i => if i = identifier then kept else store i)

/-- `RateLimiter._redis_rate_limit`: the pipeline removes scores in
`[0, now - window]`, counts the remainder (before the `zadd`), adds
`now`, computes `remaining = max(0, limit - count - 1)` (the `Nat`
subtraction), and on rejection removes the just-added member again. -/
def redisRateLimit (store : RLStore) (identifier : String) (limit : Nat) (window : ℚ)
    (now : ℚ) : RLResult × RLStore :=
  let kept := (store identifier).filter
    (fun rt => !(decide (0 ≤ rt) && decide (rt ≤ now - window)))
  let currentCount := kept.length
  let remaining := limit - currentCount - 1
  let allowed := decide (currentCount < limit)
  ({ allowed := allowed, limit := limit, remaining := remaining, reset_time := now + window },
   fun i => if i = identifier then (if allowed then kept ++ [now] else kept) else store i)

/-- `RateLimiter.check_rate_limit` with a reachable backend: the Redis
sliding window when a client is connected, otherwise the in-memory
fallback (the fail-open path on a Redis error is not modelled; the
claims are about the working algorithm). -/
def checkRateLimit (useRedis : Bool) (store : RLStore) (identifier tier : String)
    (override : Option Nat) (now : ℚ) : RLResult × RLStore :=
  let limit := getRateLimit tier override
  let window : ℚ := 60
  if useRedis then redisRateLimit store identifier limit window now
  else memoryRateLimit store identifier limit window now

/-- A sequence of `check_rate_limit` calls for one identifier at the
given times, collecting each call's `(allowed, remaining)`. -/
def runRateLimitCalls (useRedis : Bool) (identifier tier : String) (override : Option Nat) :
    RLStore → List ℚ → List (Bool × Nat) × RLStore
  | store, [] => ([], store)
  | store, tnow :: rest =>
    let r := checkRateLimit useRedis store identifier tier override tnow
    let rr := runRateLimitCalls useRedis identifier tier override r.2 rest
    ((r.1.allowed, r.1.remaining) :: rr.1, rr.2)

/-- The empty rate-limit store. -/
def emptyRLStore : RLStore := fun _ => []

/-! ## API key manager (`src/saas/auth/api_keys.py`)

The relational store is a pure value (`SaasDB`); SHA-256 is an external
one-way digest, abstracted as a `hash` function parameter, with its
relevant properties (freshness of the new digest in the store,
`hash k ≠ k`) as explicit hypotheses where needed.  The DB-generated key
row id is a counter.  Timestamps are `ℚ`. -/

/-- The columns of the `users` table that this component reads
(`subscription_tier` stands for `user.subscription.tier`, flattened,
with the `"free"` fallback applied). -/
structure UserRec where
  id : String
  email : String
  firebase_uid : String
  is_active : Bool
  is_admin : Bool
  subscription_tier : String
deriving DecidableEq, Repr

/-- The `api_keys` table row: only the SHA-256 digest (`key_hash`) and
the 10-character-plus-ellipsis display value (the `key_prefix` column,
here `key_display`) are stored — never the plaintext secret. -/
structure APIKeyRec where
  id : Nat
  user_id : String
  key_hash : String
  key_display : String
  name : String
  is_active : Bool
  allowed_ips : Option (List String)
  rate_limit_override : Option Nat
  expires_at : Option ℚ
  usage_count : Nat
  last_used : Option ℚ
deriving DecidableEq, Repr

/-- The slice of the SaaS database this component touches. -/
structure SaasDB where
  users : List UserRec
  keys : List APIKeyRec
  nextKeyId : Nat
deriving DecidableEq, Repr

/-- Error kinds raised by the manager (HTTP 404/400/500). -/
inductive ApiErr
  | notFound
  | badRequest
  | internal
deriving DecidableEq, Repr

/-- `APIKeyManager.generate_api_key`: prefix + 32 random alphanumerics
(the random part is a parameter here), SHA-256 digest for storage, and
the first-10-characters display value.  Returns
`(full_key, key_hash, display value)`. -/
def generateApiKey (hash : String → String) (randomPart : String) (is_test : Bool) :
    String × String × String :=
  let keyStart := if is_test then "fl_test_" else "fl_live_"
  let fullKey := keyStart ++ randomPart
  let keyHash := hash fullKey
  let keyDisplay := fullKey.take 10 ++ "..."
  (fullKey, keyHash, keyDisplay)

/-- Active keys currently held by a user (the count checked by
`create_api_key`). -/
def activeKeyCount (db : SaasDB) (user_id : String) : Nat :=
  (db.keys.filter (fun k => decide (k.user_id = user_id) && k.is_active)).length

/-- `APIKeyManager.create_api_key`: unknown user is NotFound, 10 or more
active keys is BadRequest, otherwise the new row stores only the digest
and display value and the plaintext secret is returned exactly once. -/
def createApiKey (hash : String → String) (db : SaasDB) (user_id name randomPart : String)
    (allowed_ips : Option (List String)) (expires_in_days : Option ℚ)
    (rate_limit_override : Option Nat) (is_test : Bool) (now : ℚ) :
    Except ApiErr (String × APIKeyRec × SaasDB) :=
  match db.users.find? (fun u => decide (u.id = user_id)) with
  | Option.none => Except.error ApiErr.notFound
  | some _ =>
    if 10 ≤ activeKeyCount db user_id then Except.error ApiErr.badRequest
    else
      let g := generateApiKey hash randomPart is_test
      let newKey : APIKeyRec :=
        { id := db.nextKeyId, user_id := user_id, key_hash := g.2.1,
          key_display := g.2.2, name := name, is_active := true,
          allowed_ips := allowed_ips, rate_limit_override := rate_limit_override,
          expires_at := expires_in_days.map (fun dys => now + dys * 86400),
          usage_count := 0, last_used := Option.none }
      Except.ok (g.1, newKey,
        { db with keys := db.keys ++ [newKey], nextKeyId := db.nextKeyId + 1 })

/-- `expires_at and expires_at < now`. -/
def keyExpired (k : APIKeyRec) (now : ℚ) : Bool :=
  match k.expires_at with
  | some e => decide (e < now)
  | Option.none => false

/-- The user-context dict returned by a successful validation. -/
structure ValidationCtx where
  api_key_id : Nat
  user_id : String
  user_email : String
  firebase_uid : String
  is_admin : Bool
  subscription_tier : String
  rate_limit_override : Option Nat
  allowed_ips : Option (List String)
deriving DecidableEq, Repr

/-- `APIKeyManager.validate_api_key`: hash the input, look up an active
row with that digest, reject expired keys and inactive owners, update
`last_used`/`usage_count`, and return the owner context; every failure
is an absent result, never an exception. -/
def validateApiKey (hash : String → String) (db : SaasDB) (api_key : String) (now : ℚ) :
    Option ValidationCtx × SaasDB :=
  let keyHash := hash api_key
  match db.keys.find? (fun k => decide (k.key_hash = keyHash) && k.is_active) with
  | Option.none => (Option.none, db)
  | some k =>
    if keyExpired k now then (Option.none, db)
    else
      match db.users.find? (fun u => decide (u.id = k.user_id)) with
      | Option.none => (Option.none, db)
      | some u =>
        if u.is_active then
          (some { api_key_id := k.id, user_id := u.id, user_email := u.email,
                  firebase_uid := u.firebase_uid, is_admin := u.is_admin,
                  subscription_tier := u.subscription_tier,
                  rate_limit_override := k.rate_limit_override,
                  allowed_ips := k.allowed_ips },
           { db with keys := db.keys.map (fun x =>
              if x.id = k.id then
                { x with last_used := some now, usage_count := x.usage_count + 1 }
              else x) })
        else (Option.none, db)

/-- `APIKeyManager.revoke_api_key`: soft-deactivate the caller's own
key; a key that does not exist or belongs to someone else is
NotFound. -/
def revokeApiKey (db : SaasDB) (user_id : String) (api_key_id : Nat) :
    Except ApiErr SaasDB :=
  match db.keys.find? (fun k => decide (k.id = api_key_id) && decide (k.user_id = user_id)) with
  | Option.none => Except.error ApiErr.notFound
  | some _ =>
    Except.ok { db with keys := db.keys.map (fun x =>
      if decide (x.id = api_key_id) && decide (x.user_id = user_id) then
        { x with is_active := false }
      else x) }

/-- A stand-in digest for the C9 witness: prepends a tag, so it never
equals its input. -/
def c9Hash : String → String := fun s => "sha256:" ++ s

/-- The C9 witness user. -/
def c9User : UserRec :=
  { id := "u1", email := "u1@example.com", firebase_uid := "fb1", is_active := true,
    is_admin := false, subscription_tier := "free" }

/-- The C9 witness database before key creation. -/
def c9Db : SaasDB := { users := [c9User], keys := [], nextKeyId := 0 }

/-- The row `create_api_key` stores for the C9 witness input. -/
def c9NewKey : APIKeyRec :=
  { id := 0, user_id := "u1", key_hash := c9Hash "fl_live_r",
    key_display := "fl_live_r".take 10 ++ "...", name := "k", is_active := true,
    allowed_ips := Option.none, rate_limit_override := Option.none,
    expires_at := Option.none, usage_count := 0, last_used := Option.none }

/-- The C9 witness database after key creation. -/
def c9Db1 : SaasDB := { users := [c9User], keys := [c9NewKey], nextKeyId := 1 }

/-- The C9 witness database after the first validation. -/
def c9Db2 : SaasDB := (validateApiKey c9Hash c9Db1 "fl_live_r" 1).2

/-- The C9 witness database after revocation. -/
def c9Db3 : SaasDB :=
  match revokeApiKey c9Db2 "u1" 0 with
  | Except.ok d => d
  | Except.error _ => c9Db2

/-! ### Live re-routing (`/route/recalculate`, src/app/main.py) -/

/-- The `changes` dict of a `ReRoutingRequest`, restricted to the keys the
endpoint recognizes and the fields the impact analysis reads. -/
structure RoutingChanges where
  cancel_stop : Option Int
  add_stop : Option Int
  delay_stop : Option (Int × String)
deriving DecidableEq, Repr

/-- The numeric content of `_analyze_rerouting_impact` (src/app/main.py
lines 720-756): net mileage delta, net fuel-cost delta, and the number of
new routes whose truck appears among original routes with a different
mileage.  The `changes` parameter only selects which description lines are
printed. -/
structure ImpactAnalysis where
  milesChange : ℚ
  costChange : ℚ
  affectedCount : Nat
deriving DecidableEq, Repr

/-- `_analyze_rerouting_impact`, the three-parameter function defined at
src/app/main.py line 720. -/
def analyzeReroutingImpact (original_routes new_routes : List TruckRouteE)
    (_changes : RoutingChanges) : ImpactAnalysis :=
  { milesChange := (new_routes.map (fun r => r.total_miles)).sum -
      (original_routes.map (fun r => r.total_miles)).sum,
    costChange := (new_routes.map (fun r => r.fuel_estimate)).sum -
      (original_routes.map (fun r => r.fuel_estimate)).sum,
    affectedCount := (new_routes.filter (fun r =>
      ((original_routes.filter (fun og => !decide (og.total_miles = r.total_miles))).map
        (fun og => og.truck_id)).contains r.truck_id)).length }

/-- The number of positional parameters `_analyze_rerouting_impact` is
declared with (src/app/main.py line 720): `original_routes`, `new_routes`,
`changes`. -/
def analyzeReroutingImpactParamCount : Nat := 3

/-- The number of positional arguments passed at its only call site inside
`live_rerouting` (src/app/main.py lines 380-382): `request.original_routes`,
`final_routes`, `request.changes`, `change_log`. -/
def liveReroutingImpactCallArgCount : Nat := 4

/-- Python's positional-call step for the impact-analysis call site: a
plain function with no defaults or varargs raises `TypeError` when the
argument count differs from the parameter count, and only otherwise
evaluates the body. -/
def callAnalyzeReroutingImpact (original_routes final_routes : List TruckRouteE)
    (changes : RoutingChanges) : Except String ImpactAnalysis :=
  if liveReroutingImpactCallArgCount = analyzeReroutingImpactParamCount then
    Except.ok (analyzeReroutingImpact original_routes final_routes changes)
  else
    Except.error ("TypeError: _analyze_rerouting_impact() takes " ++
      toString analyzeReroutingImpactParamCount ++ " positional arguments but " ++
      toString liveReroutingImpactCallArgCount ++ " were given")

/-- The tail of the `live_rerouting` endpoint (src/app/main.py lines
379-419), starting from the already-merged `final_routes`: it invokes the
impact analysis, and its blanket `except Exception` turns any exception
into an HTTP 500 whose detail is `Re-routing failed: ...`. -/
def liveRerouting (original_routes final_routes : List TruckRouteE)
    (changes : RoutingChanges) : Except String (List TruckRouteE × ImpactAnalysis) :=
  match callAnalyzeReroutingImpact original_routes final_routes changes with
  | Except.error e => Except.error ("Re-routing failed: " ++ e)
  | Except.ok impact => Except.ok (final_routes, impact)

/-- `_is_truck_compatible_with_stop` (src/app/main.py lines 707-718): the
same compatibility table as the routing engine's. -/
def isTruckCompatibleWithStop (truck : Truck) (stop : Stop) : Bool :=
  decide (stop.special_constraint ∈ compatibilityRules truck.truck_type)

/-- The truck loop of `_find_best_truck_for_new_stop` (src/app/main.py
lines 668-703), translated faithfully — including line 683, where
`current_pallets` sums a comprehension over the literal empty list `[]`,
so it is always `0` and `remaining_capacity` always equals the truck's
full `max_pallets`. -/
def findBestTruckGo (new_stop : Stop) (original_routes : List TruckRouteE) :
    List Truck → Option String → ℚ → Option String
  | [], best_truck, _ => best_truck
  | truck :: rest, best_truck, best_score =>
    if isTruckCompatibleWithStop truck new_stop then
      match original_routes.find? (fun r => decide (r.truck_id = truck.truck_id)) with
      | some current_route =>
        let current_pallets : Int :=
          ((([] : List Stop).filter (fun s =>
            (current_route.stops.map (fun rs => rs.stop_id)).contains s.stop_id)).map
              (fun s => s.pallets)).sum
        let remaining_capacity := truck.max_pallets - current_pallets
        if new_stop.pallets ≤ remaining_capacity then
          let utilization_score := current_route.utilization_percent / 100 * (3/10)
          let capacity_score :=
            ((remaining_capacity : ℚ) / (truck.max_pallets : ℚ)) * (4/10)
          let route_efficiency_score :=
            (1 - min (current_route.total_time_hours / 8) 1) * (3/10)
          let total_score := utilization_score + capacity_score + route_efficiency_score
          if best_score < total_score then
            findBestTruckGo new_stop original_routes rest (some truck.truck_id) total_score
          else
            findBestTruckGo new_stop original_routes rest best_truck best_score
        else
          findBestTruckGo new_stop original_routes rest best_truck best_score
      | Option.none =>
        if new_stop.pallets ≤ truck.max_pallets then some truck.truck_id
        else findBestTruckGo new_stop original_routes rest best_truck best_score
    else
      findBestTruckGo new_stop original_routes rest best_truck best_score

/-- `_find_best_truck_for_new_stop` itself: loop over the trucks starting
from no best truck and a best score of `0`. -/
def findBestTruckForNewStop (new_stop : Stop) (trucks : List Truck)
    (original_routes : List TruckRouteE) : Option String :=
  findBestTruckGo new_stop original_routes trucks Option.none 0

/-- C5 counterexample truck: a dry truck with 10 pallets of capacity. -/
def c5TruckA : Truck :=
  { truck_id := "A", depot_address := "D", max_pallets := 10,
    truck_type := TruckType.dry, shift_start := ⟨6, 0⟩, shift_end := ⟨18, 0⟩ }

/-- C5 counterexample: truck `A`'s current route already carries 9 pallets. -/
def c5RouteA : TruckRouteE :=
  { truck_id := "A",
    stops := [{ stop_id := 1, arrivalMins := 480, distance_from_previous := 10,
                pallets := 9, time_window_start := ⟨8, 0⟩,
                time_window_end := ⟨17, 0⟩ }],
    total_miles := 20, total_time_hours := 2, fuel_estimate := 50,
    utilization_percent := 90 }

/-- C5 counterexample: the 4-pallet stop added by an `add_stop` change. -/
def c5NewStop : Stop :=
  { stop_id := 2, address := "100 Oak Ave", time_window_start := ⟨8, 0⟩,
    time_window_end := ⟨17, 0⟩, pallets := 4,
    special_constraint := SpecialConstraint.scNone }


/-! ## Theorems -/


theorem dmGetChecked_nonneg (dm : DistMatrix) (a b : String) :
    0 ≤ dmGetChecked dm a b := by
  unfold dmGetChecked
  by_cases h : dmGet dm a b < 0
  · simp [h]
  · simp [h]
    exact le_of_not_lt h

theorem pickOk_step (t : Truck) (dm : DistMatrix) (curLoc : String) (curTime : Int)
    (totalPallets : Int) (pool : List Stop) (best : Option (Stop × ℚ)) (s : Stop)
    (hs : s ∈ pool) (hb : pickOk t dm curLoc curTime totalPallets pool best) :
    pickOk t dm curLoc curTime totalPallets pool
      (greedyPickStep t dm curLoc curTime totalPallets best s) := by
  unfold greedyPickStep
  split
  · exact hb
  · rename_i hcap
    cases best with
    | none =>
      dsimp only
      split
      · rename_i harr
        exact ⟨hs, le_of_not_lt hcap, rfl, harr⟩
      · trivial
    | some bd =>
      obtain ⟨b, d⟩ := bd
      dsimp only
      split
      · rename_i harr
        exact ⟨hs, le_of_not_lt hcap, rfl, harr.1⟩
      · exact hb

theorem pickOk_go (t : Truck) (dm : DistMatrix) (curLoc : String) (curTime : Int)
    (totalPallets : Int) (pool : List Stop) :
    ∀ (l : List Stop) (best : Option (Stop × ℚ)),
      (∀ x ∈ l, x ∈ pool) →
      pickOk t dm curLoc curTime totalPallets pool best →
      pickOk t dm curLoc curTime totalPallets pool
        (greedyPickGo t dm curLoc curTime totalPallets l best) := by
  intro l
  induction l with
  | nil => intro best _ hb; exact hb
  | cons s rest ih =>
    intro best hl hb
    exact ih _ (fun x hx => hl x (List.mem_cons_of_mem _ hx))
      (pickOk_step t dm curLoc curTime totalPallets pool best s (hl s (List.mem_cons_self s rest)) hb)

theorem greedyPick_spec (t : Truck) (dm : DistMatrix) (curLoc : String) (curTime : Int)
    (totalPallets : Int) (remaining : List Stop) (s : Stop) (d : ℚ)
    (h : greedyPick t dm curLoc curTime totalPallets remaining = some (s, d)) :
    s ∈ remaining ∧ totalPallets + s.pallets ≤ t.max_pallets ∧
      d = dmGetChecked dm curLoc (stopLoc s) ∧
      (curTime : ℚ) + d * 60 / t.avg_speed_mph ≤ (s.time_window_end.toMins : ℚ) := by
  have := pickOk_go t dm curLoc curTime totalPallets remaining remaining Option.none
    (fun x hx => hx) trivial
  rw [greedyPick] at h
  rw [h] at this
  exact this

end FlowLogic

namespace FlowLogic

theorem greedyLoop_pallets (t : Truck) (dm : DistMatrix) :
    ∀ (fuel : Nat) (remaining : List Stop) (curLoc : String) (curTime totalPallets : Int),
      totalPallets ≤ t.max_pallets →
      totalPallets +
          ((greedyLoop t dm fuel remaining curLoc curTime totalPallets).1.map (·.pallets)).sum ≤
        t.max_pallets := by
  intro fuel
  induction fuel with
  | zero =>
    intro remaining curLoc curTime totalPallets htp
    simpa [greedyLoop] using htp
  | succ n ih =>
    intro remaining curLoc curTime totalPallets htp
    rw [greedyLoop]
    split
    · simpa using htp
    · cases hpick : greedyPick t dm curLoc curTime totalPallets remaining with
      | none => simpa using htp
      | some sd =>
        obtain ⟨s, d⟩ := sd
        obtain ⟨hmem, hcap, hdist, harr⟩ :=
          greedyPick_spec t dm curLoc curTime totalPallets remaining s d hpick
        have hrec := ih (remaining.erase s) (stopLoc s)
          (curTime + pyInt (d * 60 / t.avg_speed_mph) + s.service_time_minutes)
          (totalPallets + s.pallets) hcap
        simp only [List.map_cons, List.sum_cons]
        linarith
end FlowLogic

namespace FlowLogic

theorem greedyLoop_arrival (t : Truck) (dm : DistMatrix) (hspeed : 0 < t.avg_speed_mph) :
    ∀ (fuel : Nat) (remaining : List Stop) (curLoc : String) (curTime totalPallets : Int),
      ∀ rs ∈ (greedyLoop t dm fuel remaining curLoc curTime totalPallets).1,
        rs.arrivalMins ≤ rs.time_window_end.toMins := by
  intro fuel
  induction fuel with
  | zero =>
    intro remaining curLoc curTime totalPallets rs hrs
    simp [greedyLoop] at hrs
  | succ n ih =>
    intro remaining curLoc curTime totalPallets rs hrs
    rw [greedyLoop] at hrs
    split at hrs
    · simp at hrs
    · cases hpick : greedyPick t dm curLoc curTime totalPallets remaining with
      | none => rw [hpick] at hrs; simp at hrs
      | some sd =>
        obtain ⟨s, d⟩ := sd
        rw [hpick] at hrs
        simp only [List.mem_cons] at hrs
        obtain ⟨hmem, hcap, hdist, harr⟩ :=
          greedyPick_spec t dm curLoc curTime totalPallets remaining s d hpick
        rcases hrs with h1 | h2
        · subst h1
          dsimp only
          have hd : 0 ≤ d := hdist ▸ dmGetChecked_nonneg dm curLoc (stopLoc s)
          have hx : 0 ≤ d * 60 / t.avg_speed_mph :=
            div_nonneg (by linarith) (le_of_lt hspeed)
          have hfloor : pyInt (d * 60 / t.avg_speed_mph) = ⌊d * 60 / t.avg_speed_mph⌋ := by
            unfold pyInt
            simp [hx]
          have hcast :
              ((curTime + pyInt (d * 60 / t.avg_speed_mph) : Int) : ℚ) ≤
                ((s.time_window_end.toMins : Int) : ℚ) := by
            rw [hfloor]
            push_cast
            have := Int.floor_le (d * 60 / t.avg_speed_mph)
            linarith
          exact_mod_cast hcast
        · exact ih _ _ _ _ rs h2

theorem greedyLoop_origin (t : Truck) (dm : DistMatrix) :
    ∀ (fuel : Nat) (remaining : List Stop) (curLoc : String) (curTime totalPallets : Int),
      ∀ rs ∈ (greedyLoop t dm fuel remaining curLoc curTime totalPallets).1,
        ∃ s ∈ remaining, rs.stop_id = s.stop_id := by
  intro fuel
  induction fuel with
  | zero =>
    intro remaining curLoc curTime totalPallets rs hrs
    simp [greedyLoop] at hrs
  | succ n ih =>
    intro remaining curLoc curTime totalPallets rs hrs
    rw [greedyLoop] at hrs
    split at hrs
    · simp at hrs
    · cases hpick : greedyPick t dm curLoc curTime totalPallets remaining with
      | none => rw [hpick] at hrs; simp at hrs
      | some sd =>
        obtain ⟨s, d⟩ := sd
        rw [hpick] at hrs
        simp only [List.mem_cons] at hrs
        obtain ⟨hmem, -, -, -⟩ :=
          greedyPick_spec t dm curLoc curTime totalPallets remaining s d hpick
        rcases hrs with h1 | h2
        · subst h1
          exact ⟨s, hmem, rfl⟩
        · obtain ⟨s', hs', hid⟩ := ih _ _ _ _ rs h2
          exact ⟨s', List.erase_subset _ _ hs', hid⟩

end FlowLogic

namespace FlowLogic

theorem extractStopsWalk_pallets (dm : DistMatrix) (t : Truck) :
    ∀ (order : List Stop) (prevLoc : String) (cur : ℚ),
      ((extractStopsWalk dm t order prevLoc cur).map (·.pallets)).sum =
        (order.map (·.pallets)).sum := by
  intro order
  induction order with
  | nil => intro prevLoc cur; simp [extractStopsWalk]
  | cons s rest ih =>
    intro prevLoc cur
    cases rest with
    | nil => simp [extractStopsWalk]
    | cons s2 rest2 =>
      rw [extractStopsWalk]
      rw [List.map_cons, List.sum_cons, ih]
      simp

theorem extractStopsWalk_origin (dm : DistMatrix) (t : Truck) :
    ∀ (order : List Stop) (prevLoc : String) (cur : ℚ),
      ∀ rs ∈ extractStopsWalk dm t order prevLoc cur,
        ∃ s ∈ order, rs.stop_id = s.stop_id := by
  intro order
  induction order with
  | nil => intro prevLoc cur rs hrs; simp [extractStopsWalk] at hrs
  | cons s rest ih =>
    intro prevLoc cur rs hrs
    cases rest with
    | nil =>
      simp [extractStopsWalk] at hrs
      subst hrs
      exact ⟨s, List.mem_cons_self s [], rfl⟩
    | cons s2 rest2 =>
      rw [extractStopsWalk] at hrs
      simp only [List.mem_cons] at hrs
      rcases hrs with h1 | h2
      · subst h1
        exact ⟨s, List.mem_cons_self s _, rfl⟩
      · obtain ⟨s', hs', hid⟩ := ih _ _ rs h2
        exact ⟨s', List.mem_cons_of_mem _ hs', hid⟩

theorem extractRoute_pallets (dm : DistMatrix) (t : Truck) (order : List Stop) :
    ((extractRoute dm t order).stops.map (·.pallets)).sum =
      (order.map (·.pallets)).sum := by
  unfold extractRoute
  cases order with
  | nil => simp
  | cons s1 rest => simp [extractStopsWalk_pallets]

theorem extractRoute_origin (dm : DistMatrix) (t : Truck) (order : List Stop) :
    ∀ rs ∈ (extractRoute dm t order).stops, ∃ s ∈ order, rs.stop_id = s.stop_id := by
  unfold extractRoute
  cases order with
  | nil => intro rs hrs; simp at hrs
  | cons s1 rest =>
    intro rs hrs
    dsimp only at hrs
    exact extractStopsWalk_origin dm t (s1 :: rest) _ _ rs hrs

end FlowLogic

namespace FlowLogic

theorem greedyRoute_stops (t : Truck) (dm : DistMatrix) (stops : List Stop) :
    (greedyRoute t dm stops).stops =
      (greedyLoop t dm stops.length stops (depotLoc t) t.shift_start.toMins 0).1 := rfl

theorem optimizeTruckRoute_pallets (solver : Solver) (dm : DistMatrix) (t : Truck)
    (ss : List Stop)
    (hcap : ∀ order, solver t ss = some order →
      ((order.map (·.pallets)).sum ≤ t.max_pallets))
    (hmax : 0 ≤ t.max_pallets) :
    (((optimizeTruckRoute solver dm t ss).stops.map (·.pallets)).sum) ≤ t.max_pallets := by
  unfold optimizeTruckRoute
  split
  · simpa [createEmptyRoute] using hmax
  · cases hs : solver t ss with
    | none =>
      rw [greedyRoute_stops]
      simpa using greedyLoop_pallets t dm ss.length ss (depotLoc t) t.shift_start.toMins 0 hmax
    | some order =>
      rw [extractRoute_pallets]
      exact hcap order hs

theorem optimizeTruckRoute_origin (solver : Solver) (dm : DistMatrix) (t : Truck)
    (ss : List Stop)
    (hmem : ∀ order, solver t ss = some order → ∀ s ∈ order, s ∈ ss) :
    ∀ rs ∈ (optimizeTruckRoute solver dm t ss).stops, ∃ s ∈ ss, rs.stop_id = s.stop_id := by
  unfold optimizeTruckRoute
  split
  · intro rs hrs
    simp [createEmptyRoute] at hrs
  · cases hs : solver t ss with
    | none =>
      rw [greedyRoute_stops]
      exact greedyLoop_origin t dm ss.length ss (depotLoc t) t.shift_start.toMins 0
    | some order =>
      intro rs hrs
      obtain ⟨s, hso, hid⟩ := extractRoute_origin dm t order rs hrs
      exact ⟨s, hmem order hs s hso, hid⟩

theorem optimizeTruckRoute_arrival_of_none (dm : DistMatrix) (t : Truck) (ss : List Stop)
    (solver : Solver) (hnone : solver t ss = Option.none)
    (hspeed : 0 < t.avg_speed_mph) :
    ∀ rs ∈ (optimizeTruckRoute solver dm t ss).stops,
      rs.arrivalMins ≤ rs.time_window_end.toMins := by
  unfold optimizeTruckRoute
  split
  · intro rs hrs
    simp [createEmptyRoute] at hrs
  · rw [hnone]
    rw [greedyRoute_stops]
    exact greedyLoop_arrival t dm hspeed ss.length ss (depotLoc t) t.shift_start.toMins 0

end FlowLogic

namespace FlowLogic

theorem routeTrucksGo_capacity (solver : Solver) (dm : DistMatrix) (stops : List Stop)
    (hcap : ∀ t ss order, solver t ss = some order →
      ((order.map (·.pallets)).sum ≤ t.max_pallets)) :
    ∀ (ts : List Truck) (assigned : List Int),
      (∀ t ∈ ts, 0 ≤ t.max_pallets) →
      ∀ p ∈ routeTrucksGo solver dm stops ts assigned,
        ((p.2.stops.map (·.pallets)).sum) ≤ p.1.max_pallets := by
  intro ts
  induction ts with
  | nil => intro assigned _ p hp; simp [routeTrucksGo] at hp
  | cons t ts ih =>
    intro assigned hmax p hp
    rw [routeTrucksGo] at hp
    split at hp
    · rcases List.mem_cons.mp hp with h1 | h2
      · subst h1
        simp [createEmptyRoute]
        exact hmax t (List.mem_cons_self t ts)
      · exact ih assigned (fun x hx => hmax x (List.mem_cons_of_mem _ hx)) p h2
    · rcases List.mem_cons.mp hp with h1 | h2
      · subst h1
        exact optimizeTruckRoute_pallets solver dm t _
          (fun order h => hcap t _ order h) (hmax t (List.mem_cons_self t ts))
      · exact ih _ (fun x hx => hmax x (List.mem_cons_of_mem _ hx)) p h2

theorem routeTrucksGo_origin (solver : Solver) (dm : DistMatrix) (stops : List Stop)
    (hmem : ∀ t ss order, solver t ss = some order → ∀ s ∈ order, s ∈ ss) :
    ∀ (ts : List Truck) (assigned : List Int),
      ∀ p ∈ routeTrucksGo solver dm stops ts assigned,
        ∀ i ∈ routeStopIds p.2,
          ∃ s ∈ getCompatibleStops p.1 stops, i = s.stop_id ∧ i ∉ assigned := by
  intro ts
  induction ts with
  | nil => intro assigned p hp; simp [routeTrucksGo] at hp
  | cons t ts ih =>
    intro assigned p hp
    rw [routeTrucksGo] at hp
    split at hp
    · rcases List.mem_cons.mp hp with h1 | h2
      · subst h1
        intro i hi
        simp [routeStopIds, createEmptyRoute] at hi
      · exact ih assigned p h2
    · rcases List.mem_cons.mp hp with h1 | h2
      · subst h1
        intro i hi
        simp only [routeStopIds, List.mem_map] at hi
        obtain ⟨rs, hrs, hid⟩ := hi
        obtain ⟨s, hsavail, hsid⟩ :=
          optimizeTruckRoute_origin solver dm t _ (fun order h => hmem t _ order h) rs hrs
        have hfil := List.mem_filter.mp hsavail
        have hnotass : s.stop_id ∉ assigned := by
          have := hfil.2
          simpa using this
        exact ⟨s, hfil.1, by rw [← hid, hsid], by rw [← hid, hsid]; exact hnotass⟩
      · intro i hi
        obtain ⟨s, hs, hid, hnot⟩ := ih _ p h2 i hi
        refine ⟨s, hs, hid, fun hcontra => hnot ?_⟩
        exact List.mem_append.mpr (Or.inl hcontra)

end FlowLogic

namespace FlowLogic

theorem routeTrucksGo_pairwise (solver : Solver) (dm : DistMatrix) (stops : List Stop)
    (hmem : ∀ t ss order, solver t ss = some order → ∀ s ∈ order, s ∈ ss) :
    ∀ (ts : List Truck) (assigned : List Int),
      (routeTrucksGo solver dm stops ts assigned).Pairwise
        (fun p q => ∀ i ∈ routeStopIds p.2, i ∉ routeStopIds q.2) := by
  intro ts
  induction ts with
  | nil => intro assigned; simp [routeTrucksGo]
  | cons t ts ih =>
    intro assigned
    rw [routeTrucksGo]
    split
    · rw [List.pairwise_cons]
      refine ⟨?_, ih assigned⟩
      intro q hq i hi
      simp [routeStopIds, createEmptyRoute] at hi
    · rw [List.pairwise_cons]
      refine ⟨?_, ih _⟩
      intro q hq i hi hiq
      obtain ⟨s, hs, hid, hnot⟩ :=
        routeTrucksGo_origin solver dm stops hmem ts _ q hq i hiq
      exact hnot (List.mem_append.mpr (Or.inr hi))

theorem routeTrucksGo_greedy_arrival (solver : Solver) (dm : DistMatrix) (stops : List Stop)
    (hnone : ∀ t ss, solver t ss = Option.none) :
    ∀ (ts : List Truck) (assigned : List Int),
      (∀ t ∈ ts, 0 < t.avg_speed_mph) →
      ∀ p ∈ routeTrucksGo solver dm stops ts assigned,
        ∀ rs ∈ p.2.stops, rs.arrivalMins ≤ rs.time_window_end.toMins := by
  intro ts
  induction ts with
  | nil => intro assigned _ p hp; simp [routeTrucksGo] at hp
  | cons t ts ih =>
    intro assigned hspeed p hp
    rw [routeTrucksGo] at hp
    split at hp
    · rcases List.mem_cons.mp hp with h1 | h2
      · subst h1
        intro rs hrs
        simp [createEmptyRoute] at hrs
      · exact ih assigned (fun x hx => hspeed x (List.mem_cons_of_mem _ hx)) p h2
    · rcases List.mem_cons.mp hp with h1 | h2
      · subst h1
        exact optimizeTruckRoute_arrival_of_none dm t _ solver (hnone t _)
          (hspeed t (List.mem_cons_self t ts))
      · exact ih _ (fun x hx => hspeed x (List.mem_cons_of_mem _ hx)) p h2

theorem hazmat_allowed_only (ty : TruckType)
    (h : SpecialConstraint.hazmat ∈ compatibilityRules ty) : ty = TruckType.hazmat := by
  cases ty <;> simp_all [compatibilityRules]

theorem frozen_allowed_only (ty : TruckType)
    (h : SpecialConstraint.frozen ∈ compatibilityRules ty) : ty = TruckType.frozen := by
  cases ty <;> simp_all [compatibilityRules]

end FlowLogic

namespace FlowLogic

theorem mem_insertTruckByCapacity (x : Truck) :
    ∀ (l : List Truck) (a : Truck), a ∈ insertTruckByCapacity x l ↔ a = x ∨ a ∈ l := by
  intro l
  induction l with
  | nil => intro a; simp [insertTruckByCapacity]
  | cons y ys ih =>
    intro a
    rw [insertTruckByCapacity]
    split
    · simp
    · simp only [List.mem_cons, ih]
      tauto

theorem mem_sortTrucksByCapacityDesc (trucks : List Truck) (a : Truck) :
    a ∈ sortTrucksByCapacityDesc trucks ↔ a ∈ trucks := by
  unfold sortTrucksByCapacityDesc
  induction trucks with
  | nil => simp
  | cons t ts ih =>
    simp only [List.foldr_cons, mem_insertTruckByCapacity, List.mem_cons, ih]

/-- C1: for every map of routes returned by `RoutingEngine.route_trucks`
(whether produced by the constraint-programming solve or by the greedy
nearest-feasible fallback), and for every truck, the sum of pallets over
the RouteStops in that truck's TruckRoute is at most that truck's
`max_pallets`.  The first hypothesis is the CP model's capacity
dimension (`AddDimensionWithVehicleCapacity` with capacity
`truck.max_pallets` and slack 0): any order the external solver returns
fits the truck's capacity.  The second rules out trucks declared with a
negative capacity, for which even an empty route would violate the
claim. -/
theorem claim_C1_capacity_invariant (solver : Solver) (dm : DistMatrix)
    (stops : List Stop) (trucks : List Truck)
    (hcap : ∀ t ss order, solver t ss = some order →
      ((order.map (·.pallets)).sum ≤ t.max_pallets))
    (hmax : ∀ t ∈ trucks, 0 ≤ t.max_pallets) :
    ∀ p ∈ routeTrucks solver dm stops trucks,
      ((p.2.stops.map (·.pallets)).sum) ≤ p.1.max_pallets := by
  intro p hp
  exact routeTrucksGo_capacity solver dm stops hcap _ []
    (fun t ht => hmax t ((mem_sortTrucksByCapacityDesc trucks t).mp ht)) p hp

theorem claim_C1_capacity_invariant_witness :
    (routeTrucks noSolver emptyDM [cexStop1] [cexTruckA]).all
      (fun p => decide (((p.2.stops.map (·.pallets)).sum) ≤ p.1.max_pallets)) = true := by
  rw [List.all_eq_true]
  intro p hp
  exact decide_eq_true
    (claim_C1_capacity_invariant noSolver emptyDM [cexStop1] [cexTruckA]
      (fun _ _ _ h => nomatch h) (by decide) p hp)

/-- C2, counterexample: on one plain stop (window 08:00-17:00, i.e.
480-1020 minutes) and one dry truck whose shift starts at 06:00, with no
geocoded distances (every lookup defaults to 50 miles) and the solver
finding nothing (greedy fallback), `route_trucks` puts the stop on the
route with computed arrival 426 minutes (07:06) — before the window
opens — so the arrival does not lie within
`[time_window_start, time_window_end]` although the stop appears in a
route. -/
theorem claim_C2_time_window_counterexample :
    ((routeTrucks noSolver emptyDM [cexStop1] [cexTruckA]).map
        (fun p => (p.1.truck_id, p.2.stops.map (fun rs => (rs.stop_id, rs.arrivalMins))))) =
      [("A", [(1, 426)])] ∧
    cexStop1.time_window_start.toMins = 480 ∧ ¬ ((480 : Int) ≤ 426) := by
  refine ⟨by with_unfolding_all decide, by decide, by decide⟩

/-- C2, amended: when each per-truck constraint-programming solve finds
no solution, so that every route comes from the greedy
nearest-feasible-next fallback, every RouteStop's computed
`arrival_time` is at most the originating stop's `time_window_end` (the
fallback checks only the upper end of the window); the arrival may
precede `time_window_start`, as the counterexample shows, so full
in-window feasibility does not hold. -/
theorem claim_C2_amended_greedy_upper_bound (solver : Solver) (dm : DistMatrix)
    (stops : List Stop) (trucks : List Truck)
    (hnone : ∀ t ss, solver t ss = Option.none)
    (hspeed : ∀ t ∈ trucks, 0 < t.avg_speed_mph) :
    ∀ p ∈ routeTrucks solver dm stops trucks, ∀ rs ∈ p.2.stops,
      rs.arrivalMins ≤ rs.time_window_end.toMins := by
  intro p hp
  exact routeTrucksGo_greedy_arrival solver dm stops hnone _ []
    (fun t ht => hspeed t ((mem_sortTrucksByCapacityDesc trucks t).mp ht)) p hp

theorem claim_C2_amended_greedy_upper_bound_witness :
    (routeTrucks noSolver emptyDM [cexStop1] [cexTruckA]).all
      (fun p => p.2.stops.all
        (fun rs => decide (rs.arrivalMins ≤ rs.time_window_end.toMins))) = true := by
  rw [List.all_eq_true]
  intro p hp
  rw [List.all_eq_true]
  intro rs hrs
  exact decide_eq_true
    (claim_C2_amended_greedy_upper_bound noSolver emptyDM [cexStop1] [cexTruckA]
      (fun t ss => rfl) (by decide) p hp rs hrs)

/-- C3: in every output of `route_trucks`, no stop whose
`special_constraint` is Hazmat is assigned to a truck whose `truck_type`
is not Hazmat, and no stop whose constraint is Frozen is assigned to a
Dry or Flatbed truck.  The first hypothesis is the structural contract
of the CP solve (its nodes are exactly the submitted stops); the second
is the data-model invariant that stop ids are unique within a
request. -/
theorem claim_C3_cargo_compatibility (solver : Solver) (dm : DistMatrix)
    (stops : List Stop) (trucks : List Truck)
    (hmem : ∀ t ss order, solver t ss = some order → ∀ s ∈ order, s ∈ ss)
    (hnodup : (stops.map (·.stop_id)).Nodup) :
    ∀ p ∈ routeTrucks solver dm stops trucks, ∀ s ∈ stops,
      ((s.special_constraint = SpecialConstraint.hazmat ∧
          p.1.truck_type ≠ TruckType.hazmat) ∨
        (s.special_constraint = SpecialConstraint.frozen ∧
          (p.1.truck_type = TruckType.dry ∨ p.1.truck_type = TruckType.flatbed))) →
      s.stop_id ∉ routeStopIds p.2 := by
  intro p hp s hs hbad hin
  obtain ⟨s', hs'compat, hid, -⟩ :=
    routeTrucksGo_origin solver dm stops hmem _ [] p hp _ hin
  have hs'mem : s' ∈ stops := (List.mem_filter.mp hs'compat).1
  have hcomp := (List.mem_filter.mp hs'compat).2
  simp only [isStopCompatible, Bool.and_eq_true, decide_eq_true_eq] at hcomp
  have hseq : s = s' := List.inj_on_of_nodup_map hnodup hs hs'mem hid
  subst hseq
  rcases hbad with ⟨hh, hty⟩ | ⟨hf, hty⟩
  · exact hty (hazmat_allowed_only p.1.truck_type (hh ▸ hcomp.1.1))
  · have := frozen_allowed_only p.1.truck_type (hf ▸ hcomp.1.1)
    rcases hty with h1 | h1 <;> rw [h1] at this <;> exact TruckType.noConfusion this

/-- C10: in every map of routes returned by `route_trucks`, the routes
are pairwise disjoint — no stop id appears in more than one truck's
route — because each truck claims only stops whose ids were not already
assigned by an earlier truck.  The hypothesis is the structural solver
contract as in C3. -/
theorem claim_C10_routes_pairwise_disjoint (solver : Solver) (dm : DistMatrix)
    (stops : List Stop) (trucks : List Truck)
    (hmem : ∀ t ss order, solver t ss = some order → ∀ s ∈ order, s ∈ ss) :
    (routeTrucks solver dm stops trucks).Pairwise
      (fun p q => ∀ i ∈ routeStopIds p.2, i ∉ routeStopIds q.2) :=
  routeTrucksGo_pairwise solver dm stops hmem _ []

end FlowLogic

namespace FlowLogic

theorem claim_C3_cargo_compatibility_witness :
    (routeTrucks noSolver emptyDM [cexStop1, cexStop2, cexStop3] [cexTruckA, cexTruckH]).all
      (fun p => ([cexStop1, cexStop2, cexStop3] : List Stop).all
        (fun s => decide
          (((s.special_constraint = SpecialConstraint.hazmat ∧
                p.1.truck_type ≠ TruckType.hazmat) ∨
              (s.special_constraint = SpecialConstraint.frozen ∧
                (p.1.truck_type = TruckType.dry ∨ p.1.truck_type = TruckType.flatbed))) →
            s.stop_id ∉ routeStopIds p.2))) = true := by
  rw [List.all_eq_true]
  intro p hp
  rw [List.all_eq_true]
  intro s hs
  exact decide_eq_true
    (claim_C3_cargo_compatibility noSolver emptyDM [cexStop1, cexStop2, cexStop3]
      [cexTruckA, cexTruckH] (fun _ _ _ h => nomatch h) (by decide) p hp s hs)

theorem claim_C10_routes_pairwise_disjoint_witness :
    (routeTrucks noSolver emptyDM [cexStop1, cexStop2, cexStop3]
        [cexTruckA, cexTruckH]).Pairwise
      (fun p q => ∀ i ∈ routeStopIds p.2, i ∉ routeStopIds q.2) :=
  claim_C10_routes_pairwise_disjoint noSolver emptyDM [cexStop1, cexStop2, cexStop3]
    [cexTruckA, cexTruckH] (fun _ _ _ h => nomatch h)


theorem length_le_typesFold (templateTypes : List TruckType) (count : Nat) :
    ∀ acc : List TruckType,
      acc.length ≤
        (templateTypes.foldl
          (fun a ty => if count ≤ a.length then a else if ty ∈ a then a else a ++ [ty])
          acc).length := by
  induction templateTypes with
  | nil => intro acc; simp
  | cons ty rest ih =>
    intro acc
    simp only [List.foldl_cons]
    refine le_trans ?_ (ih _)
    split
    · exact le_refl _
    · split
      · exact le_refl _
      · simp

theorem optimizeTruckTypesLoop_length (templateTypes : List TruckType) (count : Nat) :
    ∀ (fuel : Nat) (acc : List TruckType),
      count ≤ acc.length + fuel →
      count ≤ (optimizeTruckTypesLoop templateTypes count fuel acc).length := by
  intro fuel
  induction fuel with
  | zero =>
    intro acc h
    simpa [optimizeTruckTypesLoop] using h
  | succ n ih =>
    intro acc h
    rw [optimizeTruckTypesLoop]
    split
    · set acc1 := templateTypes.foldl
        (fun a ty => if count ≤ a.length then a else if ty ∈ a then a else a ++ [ty]) acc
        with hacc1
      have hlen1 : acc.length ≤ acc1.length := length_le_typesFold templateTypes count acc
      by_cases h1 : acc1.length < count
      · simp only [if_pos h1]
        refine ih _ ?_
        simp only [List.length_append, List.length_cons, List.length_nil]
        omega
      · simp only [if_neg h1]
        refine ih _ ?_
        omega
    · rename_i hge
      omega

theorem optimizeTruckTypes_length (required templateTypes : List TruckType) (count : Nat) :
    (optimizeTruckTypes required templateTypes count).length = count := by
  unfold optimizeTruckTypes
  rw [List.length_take]
  have := optimizeTruckTypesLoop_length templateTypes count count
    (required.foldl (fun a ty => if ty ∈ a then a else a ++ [ty]) []) (by omega)
  omega

theorem generateDefaultFleet_length_noConstraints (stops : List Stop) :
    (generateDefaultFleet stops Option.none Option.none).length =
      (fleetTemplates (determineFleetSize stops Option.none)).count := by
  unfold generateDefaultFleet
  simp [optimizeTruckTypes_length]

/-- C6: with no constraints supplied, `generate_default_fleet` on
exactly 5 stops returns exactly 2 trucks (the "small" template), on 6
stops exactly 3 trucks ("medium"), on 20 stops exactly 4 trucks
("large"), and on 21 stops exactly 5 trucks ("specialized"). -/
theorem claim_C6_fleet_size_thresholds (stops : List Stop) :
    (stops.length = 5 → (generateDefaultFleet stops Option.none Option.none).length = 2) ∧
    (stops.length = 6 → (generateDefaultFleet stops Option.none Option.none).length = 3) ∧
    (stops.length = 20 → (generateDefaultFleet stops Option.none Option.none).length = 4) ∧
    (stops.length = 21 → (generateDefaultFleet stops Option.none Option.none).length = 5) := by
  refine ⟨fun h => ?_, fun h => ?_, fun h => ?_, fun h => ?_⟩ <;>
    rw [generateDefaultFleet_length_noConstraints] <;>
    simp [determineFleetSize, h, fleetTemplates]

theorem claim_C6_fleet_size_thresholds_witness :
    (generateDefaultFleet (List.replicate 5 cexStop1) Option.none Option.none).length = 2 ∧
    (generateDefaultFleet (List.replicate 6 cexStop1) Option.none Option.none).length = 3 ∧
    (generateDefaultFleet (List.replicate 20 cexStop1) Option.none Option.none).length = 4 ∧
    (generateDefaultFleet (List.replicate 21 cexStop1) Option.none Option.none).length = 5 :=
  ⟨(claim_C6_fleet_size_thresholds _).1 (by simp),
   (claim_C6_fleet_size_thresholds _).2.1 (by simp),
   (claim_C6_fleet_size_thresholds _).2.2.1 (by simp),
   (claim_C6_fleet_size_thresholds _).2.2.2 (by simp)⟩

end FlowLogic

namespace FlowLogic

theorem containsAnyKw_sub (a : String) (hfree : kwFree a = true) :
    containsAnyKw (pyLower a) ["walmart", "target", "costco", "store", "retail"] = false ∧
    containsAnyKw (pyLower a) ["restaurant", "cafe", "diner", "kitchen"] = false ∧
    containsAnyKw (pyLower a) ["hospital", "clinic", "medical"] = false ∧
    containsAnyKw (pyLower a) ["warehouse", "distribution", "depot"] = false ∧
    containsAnyKw (pyLower a) ["restaurant", "food", "grocery", "fresh"] = false ∧
    containsAnyKw (pyLower a) ["pharmacy", "medical", "hospital"] = false ∧
    containsAnyKw (pyLower a) ["warehouse", "industrial", "manufacturing"] = false ∧
    containsAnyKw (pyLower a) ["restaurant", "cafe"] = false ∧
    containsAnyKw (pyLower a) ["office", "business"] = false := by
  simp only [kwFree, Bool.not_or, Bool.and_eq_true, Bool.not_eq_true'] at hfree
  exact ⟨hfree.1.1.1.1.1.1.1.1, hfree.1.1.1.1.1.1.1.2, hfree.1.1.1.1.1.1.2,
    hfree.1.1.1.1.1.2, hfree.1.1.1.1.2, hfree.1.1.1.2, hfree.1.1.2, hfree.1.2, hfree.2⟩

theorem ruleBasedEnrichment_plain (a : String) (hfree : kwFree a = true) :
    ruleBasedEnrichment a =
      { estimated_pallets := 3, special_constraint := "None",
        suggested_time_window := "08:00-18:00", service_time_minutes := 15 } := by
  obtain ⟨h1, h2, h3, h4, h5, h6, h7, h8, h9⟩ := containsAnyKw_sub a hfree
  simp [ruleBasedEnrichment, h1, h2, h3, h4, h5, h6, h7, h8, h9]

/-- C7, counterexample: a one-row stops CSV whose only column is an
address, parsed with AI unavailable (so the rule-based enrichment runs),
yields a stop whose time window is 08:00-18:00 — the rule-based standard
window — not the 08:00-17:00 hard default the claim states.  (Stop id,
pallets, constraint and service time do match the claim here.) -/
theorem claim_C7_enrichment_defaults_counterexample :
    parseStopsCsvAddressOnly ["123 Main Street Springfield"] =
      [{ stop_id := 1, address := "123 Main Street Springfield",
         time_window_start := ⟨8, 0⟩, time_window_end := ⟨18, 0⟩, pallets := 3,
         special_constraint := SpecialConstraint.scNone, service_time_minutes := 15 }] ∧
    (⟨18, 0⟩ : Tm) ≠ (⟨17, 0⟩ : Tm) :=
  ⟨by decide, by decide⟩

/-- C7, amended: for a stops CSV whose only detected column is the
address column, with the LLM unavailable (rule-based enrichment), every
row whose address matches none of the enrichment keyword lists yields a
Stop with `pallets = 3`, `special_constraint = None`, time window
08:00-18:00 (the rule-based standard window, not 08:00-17:00),
`service_time_minutes = 15`, and `stop_id` equal to the 1-based row
index.  (The 08:00-17:00 hard default of the claim applies only when
enrichment is disabled altogether or fails to produce a parseable
window.) -/
theorem claim_C7_amended_enrichment_defaults (rows : List String) (i : Nat) (cell : String)
    (hcell : rows[i]? = some cell) (hplain : kwFree (pyStrip cell) = true) :
    (parseStopsCsvAddressOnly rows)[i]? = some
      { stop_id := (i : Int) + 1, address := pyStrip cell, time_window_start := ⟨8, 0⟩,
        time_window_end := ⟨18, 0⟩, pallets := 3,
        special_constraint := SpecialConstraint.scNone, service_time_minutes := 15 } := by
  unfold parseStopsCsvAddressOnly
  rw [List.getElem?_mapIdx, hcell]
  have he := ruleBasedEnrichment_plain (pyStrip cell) hplain
  have hw : parseTimeWindowStr "08:00-18:00" = some (⟨8, 0⟩, ⟨18, 0⟩) := by decide
  have hc : parseSpecialConstraintStr "None" = some SpecialConstraint.scNone := rfl
  simp [he, hw, hc]

theorem claim_C7_amended_enrichment_defaults_witness :
    (parseStopsCsvAddressOnly ["123 Main Street Springfield"])[0]? = some
      { stop_id := 1, address := pyStrip "123 Main Street Springfield",
        time_window_start := ⟨8, 0⟩, time_window_end := ⟨18, 0⟩, pallets := 3,
        special_constraint := SpecialConstraint.scNone, service_time_minutes := 15 } :=
  claim_C7_amended_enrichment_defaults ["123 Main Street Springfield"] 0
    "123 Main Street Springfield" (by decide) (by decide)


theorem checkRL_reduce_false (store : RLStore) (idf : String) (now : ℚ) :
    checkRateLimit false store idf "free" Option.none now =
      memoryRateLimit store idf 10 60 now := rfl

theorem checkRL_reduce_true (store : RLStore) (idf : String) (now : ℚ) :
    checkRateLimit true store idf "free" Option.none now =
      redisRateLimit store idf 10 60 now := rfl

theorem rlFilter_keep_all (l : List ℚ) (now : ℚ) (hkeep : ∀ x ∈ l, now - 60 < x ∧ 0 ≤ x) :
    l.filter (fun rt => decide (now - 60 < rt)) = l ∧
    l.filter (fun rt => !(decide (0 ≤ rt) && decide (rt ≤ now - 60))) = l := by
  constructor
  · exact List.filter_eq_self.mpr (fun x hx => decide_eq_true (hkeep x hx).1)
  · refine List.filter_eq_self.mpr (fun x hx => ?_)
    have h1 := (hkeep x hx).1
    have : decide (x ≤ now - 60) = false := decide_eq_false (by linarith)
    simp [this]

theorem checkRL_allowed (useRedis : Bool) (store : RLStore) (idf : String) (l : List ℚ)
    (now : ℚ) (hst : store idf = l) (hkeep : ∀ x ∈ l, now - 60 < x ∧ 0 ≤ x)
    (hlen : l.length < 10) :
    (checkRateLimit useRedis store idf "free" Option.none now).1.allowed = true ∧
    (checkRateLimit useRedis store idf "free" Option.none now).1.remaining = 9 - l.length ∧
    (checkRateLimit useRedis store idf "free" Option.none now).2 idf = l ++ [now] := by
  obtain ⟨hm, hr⟩ := rlFilter_keep_all l now hkeep
  cases useRedis with
  | false =>
    rw [checkRL_reduce_false]
    unfold memoryRateLimit
    rw [hst, hm]
    rw [if_pos hlen]
    refine ⟨rfl, by simp; omega, by simp⟩
  | true =>
    rw [checkRL_reduce_true]
    unfold redisRateLimit
    rw [hst, hr]
    have hall : decide (l.length < 10) = true := decide_eq_true hlen
    refine ⟨hall, by simp; omega, ?_⟩
    simp [hall]

theorem checkRL_rejected (useRedis : Bool) (store : RLStore) (idf : String) (l : List ℚ)
    (now : ℚ) (hst : store idf = l) (hkeep : ∀ x ∈ l, now - 60 < x ∧ 0 ≤ x)
    (hlen : l.length = 10) :
    (checkRateLimit useRedis store idf "free" Option.none now).1.allowed = false ∧
    (checkRateLimit useRedis store idf "free" Option.none now).1.remaining = 0 ∧
    (checkRateLimit useRedis store idf "free" Option.none now).2 idf = l := by
  obtain ⟨hm, hr⟩ := rlFilter_keep_all l now hkeep
  cases useRedis with
  | false =>
    rw [checkRL_reduce_false]
    simp only [memoryRateLimit, hst, hm, hlen]
    norm_num
  | true =>
    rw [checkRL_reduce_true]
    simp only [redisRateLimit, hst, hr, hlen]
    norm_num

theorem checkRL_fresh (useRedis : Bool) (store : RLStore) (idf : String) (l : List ℚ)
    (now : ℚ) (hst : store idf = l) (hold : ∀ x ∈ l, 0 ≤ x ∧ x ≤ now - 60) :
    (checkRateLimit useRedis store idf "free" Option.none now).1.allowed = true := by
  cases useRedis with
  | false =>
    rw [checkRL_reduce_false]
    unfold memoryRateLimit
    rw [hst]
    have hm : l.filter (fun rt => decide (now - 60 < rt)) = [] := by
      rw [List.filter_eq_nil_iff]
      intro x hx
      have := (hold x hx).2
      simp
      linarith
    rw [hm]
    norm_num
  | true =>
    rw [checkRL_reduce_true]
    unfold redisRateLimit
    rw [hst]
    have hr : l.filter (fun rt => !(decide (0 ≤ rt) && decide (rt ≤ now - 60))) = [] := by
      rw [List.filter_eq_nil_iff]
      intro x hx
      simp [(hold x hx).1, (hold x hx).2]
    rw [hr]
    norm_num

theorem runRL_admits (useRedis : Bool) (idf : String) :
    ∀ (pending : List ℚ) (store : RLStore) (l : List ℚ),
      store idf = l →
      (∀ x ∈ l, 0 ≤ x) →
      (∀ x ∈ pending, 0 ≤ x) →
      (∀ y ∈ pending, ∀ x ∈ l, y - 60 < x) →
      (∀ y ∈ pending, ∀ x ∈ pending, y - 60 < x) →
      l.length + pending.length ≤ 10 →
      (runRateLimitCalls useRedis idf "free" Option.none store pending).1 =
          (List.range pending.length).map (fun k => (true, 9 - (l.length + k))) ∧
        (runRateLimitCalls useRedis idf "free" Option.none store pending).2 idf =
          l ++ pending := by
  intro pending
  induction pending with
  | nil =>
    intro store l hst _ _ _ _ _
    simp [runRateLimitCalls, hst]
  | cons tc rest ih =>
    intro store l hst hlpos hppos hwin hself hcount
    have htc : tc ∈ tc :: rest := List.mem_cons_self tc rest
    have hstep := checkRL_allowed useRedis store idf l tc hst
      (fun x hx => ⟨hwin tc htc x hx, hlpos x hx⟩) (by simp at hcount; omega)
    rw [runRateLimitCalls]
    have hrec := ih (checkRateLimit useRedis store idf "free" Option.none tc).2 (l ++ [tc])
      hstep.2.2
      (fun x hx => by
        rcases List.mem_append.mp hx with h | h
        · exact hlpos x h
        · simp at h
          rw [h]
          exact hppos tc htc)
      (fun x hx => hppos x (List.mem_cons_of_mem _ hx))
      (fun y hy x hx => by
        rcases List.mem_append.mp hx with h | h
        · exact hwin y (List.mem_cons_of_mem _ hy) x h
        · simp at h
          rw [h]
          exact hself y (List.mem_cons_of_mem _ hy) tc htc)
      (fun y hy x hx =>
        hself y (List.mem_cons_of_mem _ hy) x (List.mem_cons_of_mem _ hx))
      (by simp at hcount ⊢; omega)
    refine ⟨?_, by simpa using hrec.2⟩
    rw [List.length_cons, List.range_succ_eq_map, List.map_cons, List.map_map]
    have hfe : ((fun k => ((true : Bool), 9 - (l.length + k))) ∘ Nat.succ) =
        (fun k => ((true : Bool), 9 - ((l ++ [tc]).length + k))) := by
      funext k
      simp only [Function.comp_apply, List.length_append, List.length_cons, List.length_nil]
      congr 1
      omega
    rw [hfe]
    simp only [hstep.1, hstep.2.1, hrec.1]
    simp

theorem runRL_single (useRedis : Bool) (idf tier : String) (ov : Option Nat)
    (store : RLStore) (tnow : ℚ) :
    runRateLimitCalls useRedis idf tier ov store [tnow] =
      ([((checkRateLimit useRedis store idf tier ov tnow).1.allowed,
         (checkRateLimit useRedis store idf tier ov tnow).1.remaining)],
       (checkRateLimit useRedis store idf tier ov tnow).2) := rfl

theorem runRL_append (useRedis : Bool) (idf tier : String) (ov : Option Nat) :
    ∀ (l1 l2 : List ℚ) (store : RLStore),
      runRateLimitCalls useRedis idf tier ov store (l1 ++ l2) =
        ((runRateLimitCalls useRedis idf tier ov store l1).1 ++
          (runRateLimitCalls useRedis idf tier ov
            (runRateLimitCalls useRedis idf tier ov store l1).2 l2).1,
         (runRateLimitCalls useRedis idf tier ov
            (runRateLimitCalls useRedis idf tier ov store l1).2 l2).2) := by
  intro l1
  induction l1 with
  | nil => intro l2 store; simp [runRateLimitCalls]
  | cons t rest ih => intro l2 store; simp [runRateLimitCalls, ih]

end FlowLogic

namespace FlowLogic

/-- C8: for a fixed identifier with tier `free` (limit 10, window 60
seconds) and no prior requests, 10 consecutive rate-limit checks within
the window are all admitted with strictly decreasing remaining counts
(9, 8, ..., 0), the 11th check within the same window is rejected with
`remaining = 0`, and a check made after the window has elapsed is
admitted again.  Holds for both the Redis sliding-window path and the
in-memory fallback (`useRedis` selects the path).  Call times are
nonnegative, strictly increasing (so the Redis member `str(now)` never
collides), and pairwise within 60 seconds of one another; the final call
comes at least 60 seconds after every earlier one. -/
theorem claim_C8_rate_limiter_window (useRedis : Bool) (ts : List ℚ) (tLater : ℚ)
    (hlen : ts.length = 11)
    (_hmono : ts.Pairwise (· < ·))
    (hpos : ∀ x ∈ ts, 0 ≤ x)
    (hspread : ∀ y ∈ ts, ∀ x ∈ ts, y - 60 < x)
    (hlater : ∀ x ∈ ts, x ≤ tLater - 60) :
    (runRateLimitCalls useRedis "X" "free" Option.none emptyRLStore ts).1 =
      [(true, 9), (true, 8), (true, 7), (true, 6), (true, 5), (true, 4), (true, 3),
       (true, 2), (true, 1), (true, 0), (false, 0)] ∧
    (checkRateLimit useRedis
        (runRateLimitCalls useRedis "X" "free" Option.none emptyRLStore ts).2
        "X" "free" Option.none tLater).1.allowed = true := by
  rcases ts with _ | ⟨t0, _ | ⟨t1, _ | ⟨t2, _ | ⟨t3, _ | ⟨t4, _ | ⟨t5, _ | ⟨t6, _ | ⟨t7,
    _ | ⟨t8, _ | ⟨t9, _ | ⟨t10, rest⟩⟩⟩⟩⟩⟩⟩⟩⟩⟩⟩ <;> simp only [List.length_nil,
      List.length_cons] at hlen <;> try omega
  have hrest : rest = [] := by
    have : rest.length = 0 := by omega
    exact List.length_eq_zero.mp this
  subst hrest
  have hsplit : ([t0, t1, t2, t3, t4, t5, t6, t7, t8, t9, t10] : List ℚ) =
      [t0, t1, t2, t3, t4, t5, t6, t7, t8, t9] ++ [t10] := rfl
  have hsubF : ∀ x ∈ ([t0, t1, t2, t3, t4, t5, t6, t7, t8, t9] : List ℚ),
      x ∈ ([t0, t1, t2, t3, t4, t5, t6, t7, t8, t9, t10] : List ℚ) := by
    intro x hx
    simp at hx ⊢
    tauto
  have hlast : t10 ∈ ([t0, t1, t2, t3, t4, t5, t6, t7, t8, t9, t10] : List ℚ) := by simp
  have hfront := runRL_admits useRedis "X" [t0, t1, t2, t3, t4, t5, t6, t7, t8, t9]
    emptyRLStore [] rfl (by intro x hx; simp at hx)
    (fun x hx => hpos x (hsubF x hx))
    (by intro y hy x hx; simp at hx)
    (fun y hy x hx => hspread y (hsubF y hy) x (hsubF x hx))
    (by simp)
  rw [hsplit, runRL_append]
  have hstore2 := hfront.2
  simp only [List.nil_append] at hstore2
  have hrej := checkRL_rejected useRedis
    (runRateLimitCalls useRedis "X" "free" Option.none emptyRLStore
      [t0, t1, t2, t3, t4, t5, t6, t7, t8, t9]).2
    "X" [t0, t1, t2, t3, t4, t5, t6, t7, t8, t9] t10 hstore2
    (fun x hx => ⟨hspread t10 hlast x (hsubF x hx), hpos x (hsubF x hx)⟩)
    (by simp)
  rw [runRL_single]
  constructor
  · rw [hfront.1]
    simp only [hrej.1, hrej.2.1, List.length_cons, List.length_nil]
    decide
  · dsimp only
    exact checkRL_fresh useRedis _ "X" [t0, t1, t2, t3, t4, t5, t6, t7, t8, t9] tLater
      hrej.2.2
      (fun x hx => ⟨hpos x (hsubF x hx), hlater x (hsubF x hx)⟩)

theorem claim_C8_rate_limiter_window_witness :
    (runRateLimitCalls false "X" "free" Option.none emptyRLStore
        [0, 1, 2, 3, 4, 5, 6, 7, 8, 9, 10]).1 =
      [(true, 9), (true, 8), (true, 7), (true, 6), (true, 5), (true, 4), (true, 3),
       (true, 2), (true, 1), (true, 0), (false, 0)] ∧
    (checkRateLimit false
        (runRateLimitCalls false "X" "free" Option.none emptyRLStore
          [0, 1, 2, 3, 4, 5, 6, 7, 8, 9, 10]).2
        "X" "free" Option.none 70).1.allowed = true :=
  claim_C8_rate_limiter_window false [0, 1, 2, 3, 4, 5, 6, 7, 8, 9, 10] 70
    (by decide)
    (by norm_num)
    (by intro x hx; fin_cases hx <;> norm_num)
    (by intro y hy x hx; fin_cases hy <;> fin_cases hx <;> norm_num)
    (by intro x hx; fin_cases hx <;> norm_num)


theorem find?_keyhash_none (target : String) (l : List APIKeyRec)
    (h : ∀ k ∈ l, k.key_hash ≠ target) :
    l.find? (fun k => decide (k.key_hash = target) && k.is_active) = Option.none := by
  rw [List.find?_eq_none]
  intro k hk hpk
  simp only [Bool.and_eq_true, decide_eq_true_eq] at hpk
  exact h k hk hpk.1

theorem validateApiKey_hit (hash : String → String) (db : SaasDB) (api_key : String)
    (now : ℚ) (k : APIKeyRec) (u : UserRec)
    (hk : db.keys.find? (fun x => decide (x.key_hash = hash api_key) && x.is_active) = some k)
    (hexp : keyExpired k now = false)
    (hu : db.users.find? (fun x => decide (x.id = k.user_id)) = some u)
    (hua : u.is_active = true) :
    validateApiKey hash db api_key now =
      (some { api_key_id := k.id, user_id := u.id, user_email := u.email,
              firebase_uid := u.firebase_uid, is_admin := u.is_admin,
              subscription_tier := u.subscription_tier,
              rate_limit_override := k.rate_limit_override,
              allowed_ips := k.allowed_ips },
       { db with keys := db.keys.map (fun x =>
          if x.id = k.id then
            { x with last_used := some now, usage_count := x.usage_count + 1 }
          else x) }) := by
  simp only [validateApiKey, hk, hexp, hu, hua, Bool.false_eq_true, if_false, if_true]

theorem validateApiKey_none (hash : String → String) (db : SaasDB) (api_key : String)
    (now : ℚ)
    (hk : db.keys.find? (fun k => decide (k.key_hash = hash api_key) && k.is_active) =
      Option.none) :
    (validateApiKey hash db api_key now).1 = Option.none := by
  simp only [validateApiKey, hk]

theorem revokeApiKey_isOk_of_mem (db : SaasDB) (user_id : String) (api_key_id : Nat)
    (h : (db.keys.find?
      (fun k => decide (k.id = api_key_id) && decide (k.user_id = user_id))).isSome = true) :
    (revokeApiKey db user_id api_key_id).isOk = true := by
  unfold revokeApiKey
  cases hfd : db.keys.find?
      (fun k => decide (k.id = api_key_id) && decide (k.user_id = user_id)) with
  | none =>
    rw [hfd] at h
    simp at h
  | some w =>
    rfl

theorem revokeApiKey_ok_eq (db : SaasDB) (user_id : String) (api_key_id : Nat)
    (db3 : SaasDB) (h : revokeApiKey db user_id api_key_id = Except.ok db3) :
    db3 = { db with keys := db.keys.map (fun x =>
      if decide (x.id = api_key_id) && decide (x.user_id = user_id) then
        { x with is_active := false }
      else x) } := by
  unfold revokeApiKey at h
  cases hfd : db.keys.find?
      (fun k => decide (k.id = api_key_id) && decide (k.user_id = user_id)) with
  | none =>
    rw [hfd] at h
    simp at h
  | some w =>
    rw [hfd] at h
    simp only [Except.ok.injEq] at h
    exact h.symm

/-- C9: for an existing active user, creating an API key and immediately
validating the returned secret succeeds and yields that user's
`user_id`; after revoking the key, validating the same secret returns an
absent result; and the stored record contains only the SHA-256 hash of
the key and a display prefix of the first 10 characters plus an
ellipsis, never the plaintext secret.  Hypotheses: the user exists and
is active with fewer than 10 active keys; the freshly generated key's
digest does not collide with any stored digest; and, since SHA-256 is a
digest, neither the digest nor the 13-character display value equals the
40-character plaintext. -/
theorem claim_C9_api_key_lifecycle (hash : String → String) (db : SaasDB)
    (uid nm rand : String) (ips : Option (List String)) (ov : Option Nat)
    (tCreate tV1 tV2 : ℚ) (u : UserRec)
    (hu : db.users.find? (fun x => decide (x.id = uid)) = some u)
    (hactive : u.is_active = true)
    (hcount : activeKeyCount db uid < 10)
    (hfresh : ∀ k ∈ db.keys, k.key_hash ≠ hash ("fl_live_" ++ rand))
    (hhashne : hash ("fl_live_" ++ rand) ≠ "fl_live_" ++ rand)
    (hdispne : ("fl_live_" ++ rand).take 10 ++ "..." ≠ "fl_live_" ++ rand) :
    ∀ fullKey newKey db1,
      createApiKey hash db uid nm rand ips Option.none ov false tCreate =
        Except.ok (fullKey, newKey, db1) →
      fullKey = "fl_live_" ++ rand ∧
      newKey.key_hash = hash fullKey ∧
      newKey.key_display = fullKey.take 10 ++ "..." ∧
      newKey.key_hash ≠ fullKey ∧
      newKey.key_display ≠ fullKey ∧
      ((validateApiKey hash db1 fullKey tV1).1.map (fun c => c.user_id)) = some uid ∧
      (revokeApiKey (validateApiKey hash db1 fullKey tV1).2 uid newKey.id).isOk = true ∧
      (∀ db3, revokeApiKey (validateApiKey hash db1 fullKey tV1).2 uid newKey.id =
          Except.ok db3 →
        (validateApiKey hash db3 fullKey tV2).1 = Option.none) := by
  intro fullKey newKey db1 hcr
  have huid : u.id = uid := by
    have := List.find?_some hu
    simpa using this
  have hc10 : ¬ 10 ≤ activeKeyCount db uid := by omega
  unfold createApiKey at hcr
  rw [hu, if_neg hc10] at hcr
  simp only [generateApiKey, Bool.false_eq_true, if_false, Option.map_none',
    Except.ok.injEq, Prod.mk.injEq] at hcr
  obtain ⟨hfk, hnk, hdb1⟩ := hcr
  subst hfk
  have hkh : newKey.key_hash = hash ("fl_live_" ++ rand) := by rw [← hnk]
  have hkd : newKey.key_display = ("fl_live_" ++ rand).take 10 ++ "..." := by rw [← hnk]
  have hka : newKey.is_active = true := by rw [← hnk]
  have hkuid : newKey.user_id = uid := by rw [← hnk]
  have hdb1keys : db1.keys = db.keys ++ [newKey] := by
    simp only [← hdb1, ← hnk]
  have hdb1users : db1.users = db.users := by
    simp only [← hdb1]
  have hexp1 : keyExpired newKey tV1 = false := by
    rw [← hnk]
    rfl
  have hfind1 : db1.keys.find?
      (fun x => decide (x.key_hash = hash ("fl_live_" ++ rand)) && x.is_active) =
        some newKey := by
    rw [hdb1keys, List.find?_append, find?_keyhash_none _ _ hfresh]
    simp [List.find?_cons, hkh, hka]
  have huser1 : db1.users.find? (fun x => decide (x.id = newKey.user_id)) = some u := by
    rw [hdb1users, hkuid]
    exact hu
  refine ⟨rfl, hkh, hkd, by rw [hkh]; exact hhashne, by rw [hkd]; exact hdispne,
    ?_, ?_, ?_⟩
  case _ =>
    rw [validateApiKey_hit hash db1 _ tV1 newKey u hfind1 hexp1 huser1 hactive]
    simp [huid]
  case _ =>
    rw [validateApiKey_hit hash db1 _ tV1 newKey u hfind1 hexp1 huser1 hactive]
    refine revokeApiKey_isOk_of_mem _ _ _ ?_
    simp only [List.find?_isSome]
    rw [hdb1keys]
    refine ⟨_, List.mem_map_of_mem _
      (show newKey ∈ db.keys ++ [newKey] by simp), ?_⟩
    simp [hkuid]
  case _ =>
    intro db3 hrv
    rw [validateApiKey_hit hash db1 _ tV1 newKey u hfind1 hexp1 huser1 hactive] at hrv
    have hdb3 := revokeApiKey_ok_eq _ _ _ _ hrv
    rw [hdb3]
    refine validateApiKey_none _ _ _ _ ?_
    rw [List.find?_eq_none]
    intro k hk hpk
    simp only [Bool.and_eq_true, decide_eq_true_eq] at hpk
    simp only [List.mem_map] at hk
    rw [hdb1keys] at hk
    simp only [List.mem_append, List.mem_singleton] at hk
    obtain ⟨y, ⟨z, hz, hzy⟩, hyk⟩ := hk
    have hyhash : y.key_hash = z.key_hash := by
      rw [← hzy]
      split <;> rfl
    have hkhash : k.key_hash = y.key_hash := by
      rw [← hyk]
      split <;> rfl
    rcases hz with hzold | hznew
    · refine hfresh z hzold ?_
      rw [← hyhash, ← hkhash]
      exact hpk.1
    · have hy2 : y = { newKey with last_used := some tV1, usage_count := newKey.usage_count + 1 } := by
        rw [← hzy, hznew]
        simp
      have hcond : (decide (y.id = newKey.id) && decide (y.user_id = uid)) = true := by
        rw [hy2]
        simp [hkuid]
      have hk2 : k = { y with is_active := false } := by
        rw [← hyk]
        simp [hcond]
      rw [hk2] at hpk
      simp at hpk

/-- Witness for C9: the concrete one-user database `c9Db`, random part
`"r"`, and the lifecycle create → validate → revoke → validate. -/
theorem claim_C9_api_key_lifecycle_witness :
    "fl_live_r" = "fl_live_" ++ "r" ∧
    c9NewKey.key_hash = c9Hash "fl_live_r" ∧
    c9NewKey.key_display = "fl_live_r".take 10 ++ "..." ∧
    c9NewKey.key_hash ≠ "fl_live_r" ∧
    c9NewKey.key_display ≠ "fl_live_r" ∧
    ((validateApiKey c9Hash c9Db1 "fl_live_r" 1).1.map (fun c => c.user_id)) =
      some "u1" ∧
    (revokeApiKey (validateApiKey c9Hash c9Db1 "fl_live_r" 1).2 "u1" c9NewKey.id).isOk =
      true ∧
    (∀ db3, revokeApiKey (validateApiKey c9Hash c9Db1 "fl_live_r" 1).2 "u1" c9NewKey.id =
        Except.ok db3 →
      (validateApiKey c9Hash db3 "fl_live_r" 2).1 = Option.none) :=
  claim_C9_api_key_lifecycle c9Hash c9Db "u1" "k" "r" Option.none Option.none 0 1 2 c9User
    (by rfl) (by rfl) (by decide) (by simp [c9Db]) (by decide) (by decide)
    "fl_live_r" c9NewKey c9Db1 (by rfl)


/-- C4 (code bug): the recalculate operation never completes successfully —
`live_rerouting` passes four positional arguments to the three-parameter
`_analyze_rerouting_impact`, so every request that reaches the
impact-analysis step raises `TypeError`, which the endpoint's blanket
`except` converts into an HTTP 500 `Re-routing failed:` response; no
response with an impact summary is ever produced. -/
theorem claim_C4_impact_analysis_unreachable
    (original_routes final_routes : List TruckRouteE) (changes : RoutingChanges) :
    liveRerouting original_routes final_routes changes =
      Except.error ("Re-routing failed: TypeError: _analyze_rerouting_impact() " ++
        "takes 3 positional arguments but 4 were given") := rfl

/-- C5 (code bug): `_find_best_truck_for_new_stop` computes
`current_pallets` by summing over a comprehension whose base list is the
literal empty list (src/app/main.py line 683), so every routed truck is
scored as if it were empty: truck `A`, whose current route already carries
9 of its 10 pallets, is selected for a new 4-pallet stop even though the
pallets already assigned on its route leave only 1 pallet of genuine
remaining capacity. -/
theorem claim_C5_add_stop_selection_counterexample :
    findBestTruckForNewStop c5NewStop [c5TruckA] [c5RouteA] = some "A" ∧
    c5TruckA.max_pallets <
      (c5RouteA.stops.map (fun rs => rs.pallets)).sum + c5NewStop.pallets := by
  constructor
  · with_unfolding_all decide
  · decide

end FlowLogic
